import Mathlib

/-!
Verification of the UNI_p-to-Lenex registration converter.

This file gives a shallow embedding of the converter's core code
(`src/unipParser.ts`, the Lenex cross-validator `validateRowAgainstLenex`,
the event matcher `findMatchingLenexEvent` and the entry builder
`buildLenexEntriesXml`) and proves properties of the embedded functions.

Modelling conventions:
* JavaScript strings are Lean `String`s; all string primitives the source
  uses (`trim`, `toUpperCase`, `split`, regular expressions) are embedded
  as explicit functions over `String.data` so that everything evaluates
  by kernel reduction.  JavaScript's `trim`/`\s` also strip a few exotic
  Unicode whitespace characters; the embedding covers the ASCII whitespace
  relevant to this format.
* `Number(...)` applied to regexp-validated digit strings is `strToNat`.
* `null` becomes `none`; "throw" becomes `Except.error`.
* The only impure input of the core, the current year read through
  `new Date()` inside `inferFullYearFromAgeGroup`, is passed explicitly as
  the parameter `currentYearShort`.
* DOM `Element`s produced by the entry builder are modelled as records;
  `setAttributes`, which skips `null`/`undefined`/`''` values, becomes
  `Option`-valued fields via `optOfString`.
-/

deriving instance DecidableEq for Except

namespace Unip

/-- JavaScript whitespace test for the characters occurring in this format
(`Char.isWhitespace` covers space, tab, CR, LF). -/
def jsWs (c : Char) : Bool := c.isWhitespace

/-- Remove leading and trailing whitespace from a character list
(model of JavaScript `String.prototype.trim`). -/
def trimList (l : List Char) : List Char :=
  ((l.dropWhile jsWs).reverse.dropWhile jsWs).reverse

/-- Model of JavaScript `value.trim()`. -/
def jsTrim (s : String) : String := ⟨trimList s.data⟩

/-- Model of JavaScript `value.toUpperCase()` (ASCII). -/
def jsToUpper (s : String) : String := ⟨s.data.map Char.toUpper⟩

/-- Model of JavaScript `value.toLowerCase()` (ASCII). -/
def jsToLower (s : String) : String := ⟨s.data.map Char.toLower⟩

/-- Split a character list at every occurrence of the separator `c`
(model of JavaScript `String.prototype.split` with a one-character
separator: `"".split(c) = [""]`, separators at the ends produce empty
segments). -/
def splitCharList (c : Char) : List Char → List (List Char)
  | [] => [[]]
  | x :: xs =>
    match splitCharList c xs with
    | [] => [[]]
    | y :: ys => if x = c then [] :: y :: ys else (x :: y) :: ys

/-- String-level wrapper for `splitCharList`. -/
def splitChar (c : Char) (s : String) : List String :=
  (splitCharList c s.data).map (fun l => ⟨l⟩)

/-- Replace every occurrence of `"\r\n"` by `"\n"` in a character list;
used to model splitting on the regexp `/\r?\n/`. -/
def normCRLF : List Char → List Char
  | [] => []
  | '\r' :: '\n' :: rest => '\n' :: normCRLF rest
  | x :: rest => x :: normCRLF rest

/-- Model of `content.split(/\r?\n/)`. -/
def splitLinesJS (s : String) : List String :=
  (splitCharList '\n' (normCRLF s.data)).map (fun l => ⟨l⟩)

/-- Decimal value of a digit string (model of JavaScript `Number(...)` on
strings that match `\d+`). -/
def strToNat (s : String) : Nat :=
  s.data.foldl (fun n ch => 10 * n + (ch.toNat - '0'.toNat)) 0

/-- Test for the regexp `^\d+$`. -/
def isDigits (s : String) : Bool :=
  !s.data.isEmpty && s.data.all (fun c => c.isDigit)

/-- Test for the regexp `^\d{n}$`. -/
def isNDigits (n : Nat) (s : String) : Bool :=
  s.data.length = n && s.data.all (fun c => c.isDigit)

/-- JavaScript `value || null` on an already-trimmed string. -/
def optOfString (s : String) : Option String :=
  if s = "" then none else some s

/-- First-occurrence deduplication, the iteration order of
`Array.from(new Set(list))` in JavaScript. -/
def dedupFirst : List String → List String
  | [] => []
  | x :: xs => x :: (dedupFirst xs).filter (fun y => y ≠ x)

/-! ## Row parser (src/unipParser.ts) -/

/-- `strokeMap` from unipParser.ts. -/
def strokeTable : List (String × String) :=
  [("FR", "FREE"), ("BR", "BREAST"), ("RY", "BACK"), ("BU", "FLY"),
   ("IM", "MEDLEY"), ("LM", "MEDLEY")]

/-- `genderMap` from unipParser.ts (single-character keys). -/
def genderMapChar (c : Char) : Option String :=
  if c = 'M' then some "M" else if c = 'K' then some "F"
  else if c = 'X' then some "X" else none

/-- `ageGroupMap` from unipParser.ts. -/
def ageGroupTable : List (String × String) :=
  [("JR", "Junior"), ("SR", "Senior"),
   ("MA", "Masters A"), ("MB", "Masters B"), ("MC", "Masters C"),
   ("MD", "Masters D"), ("ME", "Masters E"), ("MF", "Masters F"),
   ("MG", "Masters G"), ("MH", "Masters H"), ("MI", "Masters I"),
   ("MJ", "Masters J"), ("MK", "Masters K"), ("ML", "Masters L"),
   ("MM", "Masters M"), ("MN", "Masters N"), ("MO", "Masters O")]

/-- `relayClassMap` from unipParser.ts. -/
def relayClassTable : List (String × String) :=
  [("JUNIOR", "Junior"), ("SENIOR", "Senior"),
   ("MASTERSA", "Masters A"), ("MASTERSB", "Masters B"),
   ("MASTERSC", "Masters C"), ("MASTERSD", "Masters D"),
   ("MASTERSE", "Masters E"), ("MASTERSF", "Masters F"),
   ("MASTERSG", "Masters G"), ("MASTERSH", "Masters H"),
   ("MASTERSI", "Masters I"), ("MASTERSJ", "Masters J"),
   ("MASTERSK", "Masters K"), ("MASTERSL", "Masters L"),
   ("MASTERSM", "Masters M"), ("MASTERSN", "Masters N"),
   ("MASTERSO", "Masters O")]

/-- Split an (already trimmed and upper-cased) token into the para-class
group `S`/`SB`/`SM` and the remainder, mirroring how the alternation
`(S|SB|SM)` of the source regexps consumes the token: `SB`/`SM` when the
second character is `B`/`M`, otherwise plain `S`. -/
def paraSplit (t : String) : Option (String × String) :=
  match t.data with
  | 'S' :: 'B' :: rest => some ("SB", ⟨rest⟩)
  | 'S' :: 'M' :: rest => some ("SM", ⟨rest⟩)
  | 'S' :: rest => some ("S", ⟨rest⟩)
  | _ => none

/-- The strings matched by the level part `(1[0-5]|[1-9])` of the
para-class regexps. -/
def paraLevels : List String :=
  ["1", "2", "3", "4", "5", "6", "7", "8", "9",
   "10", "11", "12", "13", "14", "15"]

/-- Test for the full-token regexp `^(S|SB|SM)(1[0-5]|[1-9])$` on an
already trimmed and upper-cased token. -/
def paraStrictMatch (t : String) : Bool :=
  match paraSplit t with
  | some (_, lvl) => paraLevels.contains lvl
  | none => false

/-- Test for the looser regexp `^(S|SB|SM)\d+$` on an already trimmed and
upper-cased token. -/
def paraLooseMatch (t : String) : Bool :=
  match paraSplit t with
  | some (_, rest) => !rest.data.isEmpty && rest.data.all (fun c => c.isDigit)
  | none => false

/-- `parseParaClassPrefix` from unipParser.ts (the trailing word of the
source name is shortened to `Pfx` here): extract the `S`/`SB`/`SM` group
of a valid para-classification code. -/
def parseParaClassPfx (value : String) : Option String :=
  match paraSplit (jsToUpper (jsTrim value)) with
  | some (p, lvl) => if paraLevels.contains lvl then some p else none
  | none => none

/-- Result record of `parseDistance`. -/
structure DistanceInfo where
  relayCount : Nat
  distance : Option Nat
  issues : List String
  deriving DecidableEq, Repr

/-- Recognizer for the regexp `^(\d+)\s*\*\s*(\d+)$`, returning the two
captured digit groups. -/
def relayMatchParse (s : String) : Option (String × String) :=
  let l := s.data
  let ds := l.takeWhile (fun c => c.isDigit)
  let rest := l.dropWhile (fun c => c.isDigit)
  if ds.isEmpty then none
  else
    match rest.dropWhile jsWs with
    | '*' :: rest3 =>
      let rest4 := rest3.dropWhile jsWs
      let ds2 := rest4.takeWhile (fun c => c.isDigit)
      let rest5 := rest4.dropWhile (fun c => c.isDigit)
      if ds2.isEmpty || !rest5.isEmpty then none else some (⟨ds⟩, ⟨ds2⟩)
    | _ => none

/-- `parseDistance` from unipParser.ts. -/
def parseDistance (value : String) : DistanceInfo :=
  let trimmed := jsTrim value
  match relayMatchParse trimmed with
  | some (r, d) => ⟨strToNat r, some (strToNat d), []⟩
  | none =>
    if isDigits trimmed then ⟨1, some (strToNat trimmed), []⟩
    else ⟨1, none, ["Field 2 (distance) is invalid"]⟩

/-- Result record of `parseGenderAndAgeGroup`. -/
structure GenderInfo where
  gender : String
  ageGroupCode : String
  issues : List String
  deriving DecidableEq, Repr

/-- `parseGenderAndAgeGroup` from unipParser.ts. -/
def parseGenderAndAgeGroup (value : String) : GenderInfo :=
  let trimmed := jsToUpper (jsTrim value)
  match trimmed.data with
  | [] => ⟨"", "", ["Field 7 (gender+agegroup) is missing"]⟩
  | genderCode :: rest =>
    let gender := (genderMapChar genderCode).getD ""
    let raw : String := ⟨rest⟩
    let ageGroupCode :=
      if isNDigits 2 raw then "Born YY=" ++ raw
      else (ageGroupTable.lookup raw).getD raw
    let issues :=
      (if gender = "" then
        ["Unknown gender code \"" ++ String.singleton genderCode ++ "\" in field 7"]
       else []) ++
      (if raw = "" then ["Field 7 agegroup part is missing"] else [])
    ⟨gender, ageGroupCode, issues⟩

/-- Result record of `parseBirthYearOrClass`. -/
structure BirthInfo where
  birthYearOrClass : String
  issues : List String
  deriving DecidableEq, Repr

/-- The issue text raised for a para-class token with an out-of-range
level. -/
def looseParaMsg (t : String) : String :=
  "Invalid para class \"" ++ t ++ "\" (accepted: S1-S15, SB1-SB15, SM1-SM15)"

/-- `parseBirthYearOrClass` from unipParser.ts. -/
def parseBirthYearOrClass (value : String) (isRelay : Bool)
    (ageGroupFromField7 : String) : BirthInfo :=
  let trimmed := jsToUpper (jsTrim value)
  if trimmed = "" then
    if isRelay then ⟨ageGroupFromField7, []⟩
    else ⟨"", ["Field 8 (birth year/class) is missing"]⟩
  else if isNDigits 4 trimmed then ⟨trimmed, []⟩
  else
    match relayClassTable.lookup trimmed with
    | some v => ⟨v, []⟩
    | none =>
      if paraStrictMatch trimmed then ⟨trimmed, []⟩
      else if paraLooseMatch trimmed then ⟨trimmed, [looseParaMsg trimmed]⟩
      else ⟨trimmed, []⟩

/-- `parsePoolCourse` from unipParser.ts. -/
def parsePoolCourse (value : String) : Option String :=
  let normalized := jsToUpper (jsTrim value)
  if normalized = "K" then some "SCM"
  else if normalized = "L" then some "LCM"
  else none

/-- `UniPRow` from types.ts. -/
structure UniPRow where
  lineNumber : Nat
  eventNumber : Option Nat
  relayCount : Nat
  distance : Option Nat
  strokeCode : String
  stroke : String
  lastName : String
  firstName : String
  gender : String
  ageGroupCode : String
  birthYearOrClass : String
  qualificationTime : Option String
  qualificationDate : Option String
  qualificationPlace : Option String
  poolCourse : Option String
  issues : List String
  deriving DecidableEq, Repr

/-- `UniPParseResult` from types.ts. -/
structure UniPParseResult where
  clubName : String
  rows : List UniPRow
  deriving DecidableEq, Repr

/-- The `i`-th comma-separated field of a line, right-padded with empty
strings (the source pads the field array to 15 entries; `getD` with the
empty string is equivalent for every index the loop body reads). -/
def fieldAt (line : String) (i : Nat) : String :=
  (splitChar ',' line).getD i ""

/-- `expectedPrefixByStroke` from unipParser.ts (keyed by the raw stroke
code; note `LM` is absent). -/
def expectedPfxByStroke : String → Option String := fun code =>
  ([("FR", "S"), ("BU", "S"), ("RY", "S"), ("BR", "SB"), ("IM", "SM")]
    : List (String × String)).lookup code

/-- The cross-field issue text for a para class whose group does not match
the stroke-specific expectation. -/
def strokeMismatchMsg (birthYearOrClass strokeCode expected : String) : String :=
  "Invalid para class \"" ++ birthYearOrClass ++ "\" for stroke " ++ strokeCode
    ++ " (expected " ++ expected ++ " class)"

/-- Test for the character class `[OA-G]`. -/
def mastersClassAllowed (c : Char) : Bool :=
  c = 'O' || ('A' ≤ c && c ≤ 'G')

/-- The masters-relay-class cross-check of the parser loop: the field-7
token (trimmed, upper-cased) is matched against `^[MKX]M(.)$` and the
captured letter must match `[OA-G]`. -/
def mastersRelayIssue (field7Raw : String) : List String :=
  match field7Raw.data with
  | [c0, c1, c2] =>
    if (c0 = 'M' || c0 = 'K' || c0 = 'X') && c1 = 'M' then
      if mastersClassAllowed c2 then []
      else ["Invalid masters relay class in field 7 \"" ++ field7Raw
              ++ "\" (allowed: O, A-G)"]
    else []
  | _ => []

/-- The para-class cross-check of the parser loop (runs for non-relay rows
with a resolved stroke). -/
def paraCrossIssue (strokeCode : String) (birthYearOrClass : String) : List String :=
  match parseParaClassPfx birthYearOrClass with
  | some p =>
    match expectedPfxByStroke strokeCode with
    | some expected =>
      if p ≠ expected then [strokeMismatchMsg birthYearOrClass strokeCode expected]
      else []
    | none => []
  | none => []

/-- The issue accumulation of the `parseUniP` loop body, in source push
order: field-level issues first, then the cross-field checks. -/
def rowIssues (distanceInfo : DistanceInfo) (genderInfo : GenderInfo)
    (birthInfo : BirthInfo) (eventNumber : Option Nat)
    (stroke strokeCode lastName firstName : String) (isRelay : Bool)
    (field7Raw : String) : List String :=
  distanceInfo.issues ++ genderInfo.issues ++ birthInfo.issues
  ++ (if eventNumber = none then
        ["Field 1 (event number) is missing or invalid"] else [])
  ++ (if stroke = "" then
        ["Field 3 (stroke) value \"" ++ strokeCode ++ "\" is unknown"] else [])
  ++ (if lastName = "" then ["Field 4 (last name/team) is missing"] else [])
  ++ (if !isRelay && firstName = "" then
        ["Field 5 (first name) is missing for an individual event"] else [])
  ++ (if isRelay then mastersRelayIssue field7Raw else [])
  ++ (if !isRelay && stroke ≠ "" then
        paraCrossIssue strokeCode birthInfo.birthYearOrClass else [])

/-- The loop body of `parseUniP`: decode one data line into a `UniPRow`. -/
def parseRow (lineNumber : Nat) (sourceLine : String) : UniPRow :=
  let eventNumberRaw := jsTrim (fieldAt sourceLine 0)
  let distanceInfo := parseDistance (fieldAt sourceLine 1)
  let strokeCode := jsToUpper (jsTrim (fieldAt sourceLine 2))
  let stroke := (strokeTable.lookup strokeCode).getD ""
  let lastName := jsTrim (fieldAt sourceLine 3)
  let firstName := jsTrim (fieldAt sourceLine 4)
  let genderInfo := parseGenderAndAgeGroup (fieldAt sourceLine 6)
  let isRelay := decide (1 < distanceInfo.relayCount)
  let birthInfo :=
    parseBirthYearOrClass (fieldAt sourceLine 7) isRelay genderInfo.ageGroupCode
  let field7Raw := jsToUpper (jsTrim (fieldAt sourceLine 6))
  let eventNumber :=
    if isDigits eventNumberRaw then some (strToNat eventNumberRaw) else none
  let issues :=
    rowIssues distanceInfo genderInfo birthInfo eventNumber stroke strokeCode
      lastName firstName isRelay field7Raw
  { lineNumber := lineNumber
    eventNumber := eventNumber
    relayCount := distanceInfo.relayCount
    distance := distanceInfo.distance
    strokeCode := strokeCode
    stroke := stroke
    lastName := lastName
    firstName := firstName
    gender := genderInfo.gender
    ageGroupCode := genderInfo.ageGroupCode
    birthYearOrClass := birthInfo.birthYearOrClass
    qualificationTime := optOfString (jsTrim (fieldAt sourceLine 8))
    qualificationDate := optOfString (jsTrim (fieldAt sourceLine 10))
    qualificationPlace := optOfString (jsTrim (fieldAt sourceLine 11))
    poolCourse := parsePoolCourse (fieldAt sourceLine 12)
    issues := issues }

/-- The non-blank lines of the input (`split(/\r?\n/)` filtered on
`line.trim().length > 0`). -/
def nonBlankLines (content : String) : List String :=
  (splitLinesJS content).filter (fun l => 0 < (jsTrim l).length)

/-- `parseUniP` from unipParser.ts: the first non-blank line is the club
name, each later non-blank line becomes a row with a 1-based line number
among the non-blank lines; an input without non-blank lines throws. -/
def parseUniP (content : String) : Except String UniPParseResult :=
  match nonBlankLines content with
  | [] => Except.error "UNI_p file is empty."
  | club :: dataLines =>
    Except.ok
      { clubName := jsTrim club
        rows := dataLines.mapIdx (fun i line => parseRow (i + 2) line) }

end Unip

namespace Unip

/-! ## Lenex catalog shapes (types.ts) and cross-validator -/

/-- Age-group record of a Lenex event (types.ts); a bound of `-1` means
unbounded, so the fields are integers. -/
structure AgeGroup where
  agemin : Int
  agemax : Int
  name : String
  deriving DecidableEq, Repr

/-- `LenexEvent` from types.ts. -/
structure LenexEvent where
  number : String
  eventId : String
  gender : String
  round : String
  name : String
  stroke : String
  relayCount : Nat
  distance : Nat
  sessionDate : String
  ageGroups : List AgeGroup
  deriving DecidableEq, Repr

/-- The `Map<string, LenexEvent[]>` of events keyed by event number, with
the `?? []` default folded in (a missing key yields the empty list). -/
def EventsByNumber : Type := String → List LenexEvent

/-- `forbiddenRegistrationRounds`. -/
def forbiddenRegistrationRounds : List String :=
  ["FIN", "SEM", "QUA", "SOP", "SOS", "SOQ"]

/-- Membership in `forbiddenRegistrationRounds` (the `Set.has` calls). -/
def isForbiddenRound (round : String) : Bool :=
  forbiddenRegistrationRounds.contains round

/-- `inferFullYearFromAgeGroup`: decode a synthetic `Born YY=NN` age-group
code into a four-digit year string.  The source reads the current year
from `new Date()`; here its last two digits are the explicit parameter
`currentYearShort`. -/
def inferFullYearFromAgeGroup (currentYearShort : Nat) (ageGroupCode : String) :
    Option String :=
  match ageGroupCode.data with
  | 'B' :: 'o' :: 'r' :: 'n' :: ' ' :: 'Y' :: 'Y' :: '=' :: rest =>
    if isNDigits 2 ⟨rest⟩ then
      let yy := strToNat ⟨rest⟩
      some (toString (if yy ≤ currentYearShort then 2000 + yy else 1900 + yy))
    else none
  | _ => none

/-- `inferBirthYear`: a literal four-digit class value wins, otherwise the
two-digit marker of field 7 is decoded. -/
def inferBirthYear (currentYearShort : Nat) (row : UniPRow) : Option String :=
  if isNDigits 4 row.birthYearOrClass then some row.birthYearOrClass
  else inferFullYearFromAgeGroup currentYearShort row.ageGroupCode

/-- The four-digit year at the start of a session date
(regexp `^(\d{4})`). -/
def sessionYearOf (sessionDate : String) : Option Nat :=
  let four : String := ⟨sessionDate.data.take 4⟩
  if isNDigits 4 four then some (strToNat four) else none

/-- `getAgeAtEventYear`. -/
def getAgeAtEventYear (currentYearShort : Nat) (row : UniPRow)
    (event : LenexEvent) : Option Int :=
  if 1 < row.relayCount then none
  else
    match inferBirthYear currentYearShort row with
    | none => none
    | some birthYear =>
      if !isNDigits 4 birthYear then none
      else
        match sessionYearOf event.sessionDate with
        | none => none
        | some eventYear => some ((eventYear : Int) - (strToNat birthYear : Int))

/-- `isAgeInAnyEventAgeGroup`. -/
def isAgeInAnyEventAgeGroup (age : Int) (event : LenexEvent) : Bool :=
  if event.ageGroups.isEmpty then true
  else
    event.ageGroups.any (fun ageGroup =>
      (decide (ageGroup.agemin < 0) || decide (ageGroup.agemin ≤ age)) &&
      (decide (ageGroup.agemax < 0) || decide (age ≤ ageGroup.agemax)))

/-- The compatibility filter of `validateRowAgainstLenex`: relay count and
distance match, stroke and gender match when the row specifies them. -/
def compatiblePred (row : UniPRow) (event : LenexEvent) : Bool :=
  (event.relayCount == row.relayCount) &&
  (some event.distance == row.distance) &&
  ((row.stroke == "") || (event.stroke == row.stroke)) &&
  ((row.gender == "") || (event.gender == row.gender))

/-- The compatible candidates of a row: all catalog events with the row's
event number that pass `compatiblePred`. -/
def compatibleCandidatesOf (row : UniPRow) (eventsByNumber : EventsByNumber) :
    List LenexEvent :=
  match row.eventNumber with
  | none => []
  | some n => (eventsByNumber (toString n)).filter (compatiblePred row)

/-- The round-eligibility / junior-relay / age-group part of
`validateRowAgainstLenex`, which runs when compatible candidates exist. -/
def validateEligibility (currentYearShort : Nat) (row : UniPRow) (n : Nat)
    (compat : List LenexEvent) : List String :=
  let allowedCompat := compat.filter (fun e => !isForbiddenRound e.round)
  let regIssues :=
    if compat.any (fun e => !isForbiddenRound e.round) then []
    else
      ((dedupFirst (compat.map (fun e => e.round))).filter
          (fun round => isForbiddenRound round)).map
        (fun round => "Registration for " ++ round)
  let juniorIssues :=
    if 1 < row.relayCount && (jsToLower (jsTrim row.ageGroupCode) == "junior") then
      let juniorGroupCandidates :=
        if allowedCompat.isEmpty then compat else allowedCompat
      if juniorGroupCandidates.any (fun e =>
          e.ageGroups.any (fun g => jsToLower (jsTrim g.name) == "junior")) then []
      else ["Missing JUNIOR age group in Lenex event for junior relay"]
    else []
  let ageIssues :=
    let ageCheckCandidates :=
      if allowedCompat.isEmpty then compat else allowedCompat
    match ageCheckCandidates.head? with
    | none => []
    | some first =>
      match getAgeAtEventYear currentYearShort row first with
      | none => []
      | some swimmerAge =>
        if ageCheckCandidates.any (fun e => isAgeInAnyEventAgeGroup swimmerAge e)
        then []
        else
          ["Invalid age group (age " ++ toString swimmerAge
            ++ " not allowed for event " ++ toString n ++ ")"]
  regIssues ++ juniorIssues ++ ageIssues

/-- The per-candidate-list part of `validateRowAgainstLenex`: the four
independent mismatch checks followed by the eligibility checks on the
compatible candidates. -/
def validateWithCandidates (currentYearShort : Nat) (row : UniPRow) (n : Nat)
    (candidates : List LenexEvent) : List String :=
  if candidates.isEmpty then ["Invalid event"]
  else
    (if candidates.any (fun e => e.relayCount == row.relayCount) then []
     else ["Invalid length"])
    ++ ((if candidates.any (fun e => some e.distance == row.distance) then []
        else ["Invalid distance"])
    ++ ((if !(row.stroke == "")
          && !(candidates.any (fun e => e.stroke == row.stroke)) then
          ["Invalid style"]
        else [])
    ++ ((if !(row.gender == "")
          && !(candidates.any (fun e => e.gender == row.gender)) then
          ["Invalid gender"]
        else [])
    ++ (if (candidates.filter (compatiblePred row)).isEmpty then []
        else validateEligibility currentYearShort row n
          (candidates.filter (compatiblePred row))))))

/-- `validateRowAgainstLenex`. -/
def validateRowAgainstLenex (currentYearShort : Nat) (row : UniPRow)
    (eventsByNumber : EventsByNumber) (hasLenex : Bool) : List String :=
  if !hasLenex then []
  else
    match row.eventNumber with
    | none => []
    | some n =>
      validateWithCandidates currentYearShort row n (eventsByNumber (toString n))

/-- `mergeIssues`: first-occurrence deduplicated union of parse-time and
validation issues. -/
def mergeIssues (baseIssues validationIssues : List String) : List String :=
  dedupFirst (baseIssues ++ validationIssues)

/-! ## Entry builder (buildLenexEntriesXml and helpers) -/

/-- `toLenexEntryTime`: pad a one-colon value with a leading `00:` hours
field, pass a two-colon value through, reject anything else. -/
def toLenexEntryTime (value : Option String) : Option String :=
  match value with
  | none => none
  | some s =>
    if s = "" then none
    else
      let trimmed := jsTrim s
      let segments := splitChar ':' trimmed
      if segments.length = 2 then some ("00:" ++ trimmed)
      else if segments.length = 3 then some trimmed
      else none

/-- `toLenexDate`: reformat an eight-digit compact date, pass anything
else through trimmed. -/
def toLenexDate (value : Option String) : Option String :=
  match value with
  | none => none
  | some s =>
    if s = "" then none
    else
      let compact := jsTrim s
      if isNDigits 8 compact then
        some (String.mk (compact.data.take 4) ++ "-"
          ++ String.mk ((compact.data.drop 4).take 2) ++ "-"
          ++ String.mk (compact.data.drop 6))
      else some compact

/-- `findMatchingLenexEvent`: first candidate in catalog order whose round
is not forbidden and which matches the row exactly. -/
def findMatchingLenexEvent (row : UniPRow) (eventsByNumber : EventsByNumber) :
    Option LenexEvent :=
  match row.eventNumber with
  | none => none
  | some n =>
    (eventsByNumber (toString n)).find? (fun event =>
      !isForbiddenRound event.round &&
      (event.relayCount == row.relayCount) &&
      (some event.distance == row.distance) &&
      (if row.stroke == "" then true else event.stroke == row.stroke) &&
      (if row.gender == "" then true else event.gender == row.gender))

/-- `HandicapAttributeName`. -/
inductive HandicapAttributeName where
  | free
  | breast
  | medley
  deriving DecidableEq, Repr

/-- `getHandicapFromClass`: decode a para-classification token into the
handicap attribute name and level. -/
def getHandicapFromClass (value : String) :
    Option (HandicapAttributeName × String) :=
  match paraSplit (jsToUpper (jsTrim value)) with
  | some (p, lvl) =>
    if paraLevels.contains lvl then
      if p = "SB" then some (HandicapAttributeName.breast, lvl)
      else if p = "SM" then some (HandicapAttributeName.medley, lvl)
      else some (HandicapAttributeName.free, lvl)
    else none
  | none => none

/-- `mastersRelayAgeRangeByClass`. -/
def mastersRelayAgeRangeByClass : List (Char × (Nat × Nat)) :=
  [('O', (80, 99)), ('A', (100, 119)), ('B', (120, 159)), ('C', (160, 199)),
   ('D', (200, 239)), ('E', (240, 279)), ('F', (280, 319)), ('G', (320, 359))]

/-- Recognizer for the regexp `^Masters\s+([OA-G])$/i` on a trimmed value,
returning the upper-cased class letter. -/
def mastersClassOf (value : String) : Option Char :=
  let l := value.data
  if (l.take 7).map Char.toLower = "masters".data then
    let rest := l.drop 7
    let ws := rest.takeWhile jsWs
    let rest2 := rest.dropWhile jsWs
    if ws.isEmpty then none
    else
      match rest2 with
      | [c] =>
        let u := c.toUpper
        if mastersClassAllowed u then some u else none
      | _ => none
  else none

/-- `getMastersRelayAgeTotalRange`: check the class value and then the
age-group code for a masters relay class, and map the letter to its fixed
total-age band. -/
def getMastersRelayAgeTotalRange (row : UniPRow) : Option (String × String) :=
  let classLetter :=
    match mastersClassOf (jsTrim row.birthYearOrClass) with
    | some c => some c
    | none => mastersClassOf (jsTrim row.ageGroupCode)
  match classLetter with
  | some c =>
    match mastersRelayAgeRangeByClass.lookup c with
    | some (lo, hi) => some (toString lo, toString hi)
    | none => none
  | none => none

/-- `getJuniorRelayAgeMax`: the `agemax` of the winning event's `junior`
age group, for junior relays only. -/
def getJuniorRelayAgeMax (row : UniPRow) (event : LenexEvent) : Option String :=
  if 1 < row.relayCount && (jsToLower (jsTrim row.ageGroupCode) == "junior") then
    match event.ageGroups.find? (fun g => jsToLower (jsTrim g.name) == "junior") with
    | some g => some (toString g.agemax)
    | none => none
  else none

/-- The `MEETINFO` element of an entry. -/
structure MeetInfo where
  course : Option String
  date : Option String
  city : Option String
  deriving DecidableEq, Repr

/-- An `ENTRY` element (attributes set through `setAttributes`, which
skips empty values). -/
structure Entry where
  eventid : Option String
  entrytime : Option String
  entrycourse : Option String
  meetinfo : Option MeetInfo
  deriving DecidableEq, Repr

/-- The `HANDICAP` element: one optional level per attribute name;
`Element.setAttribute` overwrites a present attribute and leaves the
others alone. -/
structure Handicap where
  free : Option String
  breast : Option String
  medley : Option String
  deriving DecidableEq, Repr

/-- A `HANDICAP` element as created, before any attribute is set. -/
def emptyHandicap : Handicap := ⟨none, none, none⟩

/-- `setAttribute` on a `HANDICAP` element. -/
def Handicap.setAttr (h : Handicap) (hc : HandicapAttributeName × String) :
    Handicap :=
  match hc.1 with
  | HandicapAttributeName.free => { h with free := some hc.2 }
  | HandicapAttributeName.breast => { h with breast := some hc.2 }
  | HandicapAttributeName.medley => { h with medley := some hc.2 }

/-- One step of handicap accumulation: create the element on first use,
then set the attribute. -/
def applyHandicap (cur : Option Handicap) (hc : HandicapAttributeName × String) :
    Option Handicap :=
  some ((cur.getD emptyHandicap).setAttr hc)

/-- An `ATHLETE` element together with the key under which
`buildLenexEntriesXml` registers it in `athleteByKey`. -/
structure Athlete where
  key : String
  athleteId : Nat
  birthdate : Option String
  firstname : Option String
  lastname : Option String
  gender : Option String
  entries : List Entry
  handicap : Option Handicap
  deriving DecidableEq, Repr

/-- A `RELAY` element with its single entry. -/
structure Relay where
  number : String
  name : Option String
  agemin : String
  agemax : String
  agetotalmin : String
  agetotalmax : String
  gender : Option String
  entries : List Entry
  deriving DecidableEq, Repr

/-- The mutable state of the row loop in `buildLenexEntriesXml`. -/
structure BuildState where
  athletes : List Athlete
  relays : List Relay
  nextAthleteId : Nat
  nextRelayNumber : Nat
  skippedDuringBuild : Nat
  deriving DecidableEq, Repr

/-- The athlete identity key
`lastName|firstName|gender|birthYear-or-empty`. -/
def athleteKeyOf (currentYearShort : Nat) (row : UniPRow) : String :=
  row.lastName ++ "|" ++ row.firstName ++ "|" ++ row.gender ++ "|"
    ++ ((inferBirthYear currentYearShort row).getD "")

/-- `createEntryElement` for a row and its winning event. -/
def createEntry (row : UniPRow) (lenexEvent : LenexEvent) : Entry :=
  let entryTime := toLenexEntryTime row.qualificationTime
  let meetInfoDate := toLenexDate row.qualificationDate
  { eventid := optOfString lenexEvent.eventId
    entrytime := entryTime
    entrycourse := row.poolCourse
    meetinfo :=
      if meetInfoDate.isSome || row.qualificationPlace.isSome then
        some { course := row.poolCourse
               date := meetInfoDate
               city := row.qualificationPlace }
      else none }

/-- The per-athlete update of the loop body: set a freshly decoded
handicap attribute and append the row's entry to the athlete that owns
`key`. -/
def updateAthlete (row : UniPRow) (entry : Entry) (key : String)
    (a : Athlete) : Athlete :=
  if a.key = key then
    let a2 :=
      match getHandicapFromClass row.birthYearOrClass with
      | some hc => { a with handicap := applyHandicap a.handicap hc }
      | none => a
    { a2 with entries := a2.entries ++ [entry] }
  else a

/-- The loop body of `buildLenexEntriesXml` for one row. -/
def buildStep (currentYearShort : Nat) (eventsByNumber : EventsByNumber)
    (s : BuildState) (row : UniPRow) : BuildState :=
  match findMatchingLenexEvent row eventsByNumber with
  | none => { s with skippedDuringBuild := s.skippedDuringBuild + 1 }
  | some lenexEvent =>
    let entry := createEntry row lenexEvent
    if 1 < row.relayCount then
      let mastersRelayAgeTotal := getMastersRelayAgeTotalRange row
      let juniorRelayAgeMax := getJuniorRelayAgeMax row lenexEvent
      let relay : Relay :=
        { number := toString s.nextRelayNumber
          name := optOfString row.lastName
          agemin := "-1"
          agemax := juniorRelayAgeMax.getD "-1"
          agetotalmin := (mastersRelayAgeTotal.map Prod.fst).getD "-1"
          agetotalmax := (mastersRelayAgeTotal.map Prod.snd).getD "-1"
          gender := optOfString row.gender
          entries := [entry] }
      { s with relays := s.relays ++ [relay]
               nextRelayNumber := s.nextRelayNumber + 1 }
    else
      let birthYear := inferBirthYear currentYearShort row
      let key := athleteKeyOf currentYearShort row
      let s1 :=
        if s.athletes.any (fun a => a.key = key) then s
        else
          { s with
            athletes := s.athletes ++
              [{ key := key
                 athleteId := s.nextAthleteId
                 birthdate := birthYear.map (fun b => b ++ "-01-01")
                 firstname := optOfString row.firstName
                 lastname := optOfString row.lastName
                 gender := optOfString row.gender
                 entries := []
                 handicap := none }]
            nextAthleteId := s.nextAthleteId + 1 }
      { s1 with athletes := s1.athletes.map (updateAthlete row entry key) }

/-- The row loop of `buildLenexEntriesXml` (the builder is called with the
exportable rows). -/
def buildLenexEntries (currentYearShort : Nat) (rows : List UniPRow)
    (eventsByNumber : EventsByNumber) : BuildState :=
  rows.foldl (buildStep currentYearShort eventsByNumber) ⟨[], [], 1, 1, 0⟩

/-- The display/export pipeline of the application shell: parse the
UNI_p text, compute each row's merged issue list against the catalog,
keep the exportable rows (empty merged issue list) and run the entry
builder on them. -/
def runPipeline (currentYearShort : Nat) (content : String)
    (eventsByNumber : EventsByNumber) :
    Except String (String × List UniPRow × List (List String) × BuildState) :=
  match parseUniP content with
  | Except.error e => Except.error e
  | Except.ok pr =>
    let merged := pr.rows.map (fun row =>
      mergeIssues row.issues
        (validateRowAgainstLenex currentYearShort row eventsByNumber true))
    let exportable := pr.rows.filter (fun row =>
      (mergeIssues row.issues
        (validateRowAgainstLenex currentYearShort row eventsByNumber true)).isEmpty)
    Except.ok (pr.clubName, pr.rows, merged,
      buildLenexEntries currentYearShort exportable eventsByNumber)

/-- The clock-independent projection of a pipeline result: the club name
and the parsed rows. -/
def pipelineParsePart
    (out : String × List UniPRow × List (List String) × BuildState) :
    String × List UniPRow :=
  (out.1, out.2.1)

end Unip

namespace Unip

/-! ## Proof infrastructure: specification-side descriptions of the build -/

/-- Rows the builder turns into athlete entries: matched by
`findMatchingLenexEvent` and not relays. -/
def indivKeep (eventsByNumber : EventsByNumber) (r : UniPRow) : Bool :=
  (findMatchingLenexEvent r eventsByNumber).isSome && !(decide (1 < r.relayCount))

/-- The individual rows of the input that have a winning event. -/
def matchedIndiv (eventsByNumber : EventsByNumber) (rows : List UniPRow) :
    List UniPRow :=
  rows.filter (indivKeep eventsByNumber)

/-- The entry a row contributes, when it has a winning event. -/
def entryOf (eventsByNumber : EventsByNumber) (r : UniPRow) : Option Entry :=
  (findMatchingLenexEvent r eventsByNumber).map (createEntry r)

/-- The matched individual rows that belong to one athlete key. -/
def rowsForKey (currentYearShort : Nat) (eventsByNumber : EventsByNumber)
    (rows : List UniPRow) (key : String) : List UniPRow :=
  (matchedIndiv eventsByNumber rows).filter
    (fun r => athleteKeyOf currentYearShort r = key)

/-- Handicap accumulation over a list of decoded classifications, starting
from "no HANDICAP element". -/
def foldHandicap (l : List (HandicapAttributeName × String)) : Option Handicap :=
  l.foldl applyHandicap none

/-- Read one attribute off an optional `HANDICAP` element. -/
def handicapProj (h : Option Handicap) (attr : HandicapAttributeName) :
    Option String :=
  match h with
  | none => none
  | some hh =>
    match attr with
    | HandicapAttributeName.free => hh.free
    | HandicapAttributeName.breast => hh.breast
    | HandicapAttributeName.medley => hh.medley

/-- Invariant of the builder loop relating the athlete list to the rows
already processed. -/
def AthletesInv (currentYearShort : Nat) (eventsByNumber : EventsByNumber)
    (processed : List UniPRow) (s : BuildState) : Prop :=
  s.athletes.map (fun a => a.key)
      = dedupFirst ((matchedIndiv eventsByNumber processed).map
          (athleteKeyOf currentYearShort))
  ∧ s.nextAthleteId = s.athletes.length + 1
  ∧ s.athletes.map (fun a => a.athleteId) = List.range' 1 s.athletes.length
  ∧ (∀ a ∈ s.athletes, a.entries
      = (rowsForKey currentYearShort eventsByNumber processed a.key).filterMap
          (entryOf eventsByNumber))
  ∧ (∀ a ∈ s.athletes, a.handicap
      = foldHandicap
          ((rowsForKey currentYearShort eventsByNumber processed a.key).filterMap
            (fun r => getHandicapFromClass r.birthYearOrClass)))


/-! ## Concrete inputs used in the witnesses and counterexamples -/

def c5Row : UniPRow :=
  { lineNumber := 2, eventNumber := some 9, relayCount := 1,
    distance := some 50, strokeCode := "FR", stroke := "FREE",
    lastName := "A", firstName := "B", gender := "M", ageGroupCode := "",
    birthYearOrClass := "", qualificationTime := none,
    qualificationDate := none, qualificationPlace := none,
    poolCourse := none, issues := [] }


/-- Modelled from the spec: a value of the shape `mm:ss.hh` (two digits,
a colon, two digits, a dot, two digits), the shape the claim says is
padded with a leading `00:`. -/
def specMmSsHhShaped (s : String) : Bool :=
  match s.data with
  | [m1, m2, c, s1, s2, d, h1, h2] =>
    m1.isDigit && m2.isDigit && (c = ':') && s1.isDigit && s2.isDigit
      && (d = '.') && h1.isDigit && h2.isDigit
  | _ => false

def c1Event : LenexEvent :=
  { number := "5", eventId := "E5", gender := "M", round := "FIN", name := "",
    stroke := "FREE", relayCount := 1, distance := 100,
    sessionDate := "2025-06-01", ageGroups := [] }

def c1Map : EventsByNumber := fun n => if n = "5" then [c1Event] else []

def c1Row : UniPRow :=
  { lineNumber := 2, eventNumber := some 5, relayCount := 1,
    distance := some 100, strokeCode := "FR", stroke := "FREE",
    lastName := "Doe", firstName := "Jan", gender := "M",
    ageGroupCode := "Born YY=90", birthYearOrClass := "",
    qualificationTime := none, qualificationDate := none,
    qualificationPlace := none, poolCourse := none, issues := [] }

def sampleEventBR : LenexEvent :=
  { number := "1", eventId := "E1", gender := "M", round := "TIM", name := "",
    stroke := "BREAST", relayCount := 1, distance := 100,
    sessionDate := "2025-06-01", ageGroups := [] }

def sampleEventIM : LenexEvent :=
  { number := "2", eventId := "E2", gender := "M", round := "TIM", name := "",
    stroke := "MEDLEY", relayCount := 1, distance := 100,
    sessionDate := "2025-06-01", ageGroups := [] }

def sampleEventsMap : EventsByNumber := fun n =>
  if n = "1" then [sampleEventBR] else if n = "2" then [sampleEventIM] else []

def sampleParaRows : List UniPRow :=
  [parseRow 2 "1,100,BR,Doe,Jan,,M90,SB7,,,,,,",
   parseRow 3 "2,100,IM,Doe,Jan,,M90,SM5,,,,,,"]

def sampleAthlete : Athlete :=
  { key := "Doe|Jan|M|1990", athleteId := 1, birthdate := some "1990-01-01",
    firstname := some "Jan", lastname := some "Doe", gender := some "M",
    entries := [⟨some "E1", none, none, none⟩, ⟨some "E2", none, none, none⟩],
    handicap := some ⟨none, some "7", some "5"⟩ }

def c8Event : LenexEvent :=
  { number := "1", eventId := "E1", gender := "M", round := "TIM", name := "",
    stroke := "FREE", relayCount := 1, distance := 100,
    sessionDate := "2025-06-01", ageGroups := [⟨0, 30, "Youth"⟩] }

def c8Map : EventsByNumber := fun n => if n = "1" then [c8Event] else []

def c8Content : String := "Club\n1,100,FR,Doe,Jan,,M25,JUNIOR,,,,,,"

/-- The merged-issue-list component of a pipeline result. -/
def pipelineIssuesPart
    (out : String × List UniPRow × List (List String) × BuildState) :
    List (List String) :=
  out.2.2.1

end Unip

namespace Unip

/-! ## General helper lemmas -/

theorem strData_append (a b : String) : (a ++ b).data = a.data ++ b.data := by
  cases a; cases b; rfl

theorem strEq_of_data {a b : String} (h : a.data = b.data) : a = b := by
  cases a; cases b; exact congrArg String.mk h

theorem strAppend_left_cancel {a b c : String} (h : a ++ b = a ++ c) : b = c := by
  apply strEq_of_data
  have hd := congrArg String.data h
  rw [strData_append, strData_append] at hd
  exact List.append_cancel_left hd

theorem strAppend_left_injective (a : String) :
    Function.Injective (fun s => a ++ s) :=
  fun _ _ h => strAppend_left_cancel h

theorem str_ne_of_head {a b : String} (h : a.data.head? ≠ b.data.head?) :
    a ≠ b :=
  fun he => h (congrArg (fun s => s.data.head?) he)

theorem splitCharList_ne_nil (c : Char) (l : List Char) :
    splitCharList c l ≠ [] := by
  cases l with
  | nil => simp [splitCharList]
  | cons x xs =>
    simp only [splitCharList]
    rcases h : splitCharList c xs with _ | ⟨y, ys⟩
    · simp
    · by_cases hx : x = c <;> simp [hx]

theorem length_splitCharList (c : Char) (l : List Char) :
    (splitCharList c l).length = l.count c + 1 := by
  induction l with
  | nil => rfl
  | cons x xs ih =>
    rcases h : splitCharList c xs with _ | ⟨y, ys⟩
    · exact absurd h (splitCharList_ne_nil c xs)
    · rw [h] at ih
      have hstep : splitCharList c (x :: xs)
          = if x = c then [] :: y :: ys else (x :: y) :: ys := by
        simp only [splitCharList, h]
      rw [hstep, List.count_cons]
      by_cases hx : x = c
      · rw [if_pos hx]
        have hbeq : (x == c) = true := by simp [hx]
        rw [hbeq]
        simp only [List.length_cons] at ih ⊢
        rw [if_pos trivial]
        omega
      · rw [if_neg hx]
        have hbeq : (x == c) = false := by simp [hx]
        rw [hbeq]
        simp only [List.length_cons] at ih ⊢
        simp
        omega

theorem mem_dedupFirst {x : String} {l : List String} :
    x ∈ dedupFirst l ↔ x ∈ l := by
  induction l with
  | nil => simp [dedupFirst]
  | cons y ys ih =>
    simp only [dedupFirst, List.mem_cons, List.mem_filter]
    constructor
    · rintro (rfl | ⟨hx, _⟩)
      · exact Or.inl rfl
      · exact Or.inr (ih.mp hx)
    · rintro (rfl | hx)
      · exact Or.inl rfl
      · by_cases hxy : x = y
        · exact Or.inl hxy
        · exact Or.inr ⟨ih.mpr hx, by simpa using hxy⟩

theorem nodup_dedupFirst (l : List String) : (dedupFirst l).Nodup := by
  induction l with
  | nil => simp [dedupFirst]
  | cons y ys ih =>
    simp only [dedupFirst]
    refine List.Nodup.cons ?_ (List.Nodup.filter _ ih)
    intro hmem
    rcases List.mem_filter.mp hmem with ⟨_, hne⟩
    simp at hne

theorem dedupFirst_concat (l : List String) (x : String) :
    dedupFirst (l ++ [x])
      = if x ∈ l then dedupFirst l else dedupFirst l ++ [x] := by
  induction l with
  | nil => simp [dedupFirst]
  | cons y ys ih =>
    have hstep : dedupFirst ((y :: ys) ++ [x])
        = y :: (dedupFirst (ys ++ [x])).filter (fun z => z ≠ y) := rfl
    have hstep2 : dedupFirst (y :: ys)
        = y :: (dedupFirst ys).filter (fun z => z ≠ y) := rfl
    rw [hstep, hstep2, ih]
    by_cases hxy : x = y
    · subst hxy
      rw [if_pos (List.mem_cons_self x ys)]
      by_cases hx : x ∈ ys
      · rw [if_pos hx]
      · rw [if_neg hx, List.filter_append]
        simp
    · have hmem : (x ∈ y :: ys) ↔ (x ∈ ys) := by simp [hxy]
      by_cases hx : x ∈ ys
      · rw [if_pos hx, if_pos (hmem.mpr hx)]
      · rw [if_neg hx, if_neg (fun hc => hx (hmem.mp hc)), List.filter_append]
        simp only [List.filter_cons, List.filter_nil]
        have hd : (decide (x ≠ y)) = true := by simp [hxy]
        rw [hd]
        simp

theorem range'_snoc (s n : Nat) :
    List.range' s (n + 1) = List.range' s n ++ [s + n] := by
  induction n generalizing s with
  | zero => simp [List.range']
  | succ n ih =>
    rw [List.range'_succ, ih (s + 1), List.range'_succ, List.cons_append]
    have harith : s + 1 + n = s + (n + 1) := by omega
    rw [harith]

theorem length_filterMap_of_isSome {α β : Type} (f : α → Option β)
    (l : List α) (h : ∀ x ∈ l, (f x).isSome) :
    (l.filterMap f).length = l.length := by
  induction l with
  | nil => rfl
  | cons x xs ih =>
    rcases hx : f x with _ | b
    · exact absurd (h x (List.mem_cons_self x xs)) (by simp [hx])
    · simp [List.filterMap_cons, hx,
        ih (fun y hy => h y (List.mem_cons_of_mem x hy))]

theorem getLast?_cons_eq_or {α : Type} (a : α) (xs : List α) :
    (a :: xs).getLast? = Option.or xs.getLast? (some a) := by
  induction xs generalizing a with
  | nil => rfl
  | cons y ys ih =>
    rw [List.getLast?_cons_cons, ih y]
    rcases h : ys.getLast? with _ | b
    · rfl
    · rfl

theorem handicapProj_applyHandicap (init : Option Handicap)
    (hc : HandicapAttributeName × String) (attr : HandicapAttributeName) :
    handicapProj (applyHandicap init hc) attr
      = if hc.1 = attr then some hc.2 else handicapProj init attr := by
  rcases hc with ⟨hattr, lvl⟩
  cases init <;> cases hattr <;> cases attr <;>
    simp [applyHandicap, Handicap.setAttr, handicapProj, emptyHandicap]

theorem handicapProj_foldl (l : List (HandicapAttributeName × String))
    (attr : HandicapAttributeName) (init : Option Handicap) :
    handicapProj (l.foldl applyHandicap init) attr
      = Option.or (((l.filter (fun hc => hc.1 = attr)).map Prod.snd).getLast?)
          (handicapProj init attr) := by
  induction l generalizing init with
  | nil =>
    show handicapProj init attr
      = Option.or (([] : List String).getLast?) (handicapProj init attr)
    rcases hp : handicapProj init attr with _ | b <;> rfl
  | cons hc l ih =>
    rw [List.foldl_cons, ih]
    by_cases h1 : hc.1 = attr
    · rw [handicapProj_applyHandicap, if_pos h1]
      rw [show (hc :: l).filter (fun x => x.1 = attr)
            = hc :: l.filter (fun x => x.1 = attr) from by
          simp [List.filter_cons, h1]]
      rw [List.map_cons, getLast?_cons_eq_or]
      rcases hlast : ((l.filter (fun x => x.1 = attr)).map Prod.snd).getLast?
        with _ | b <;> rw [hlast] <;> rfl
    · rw [handicapProj_applyHandicap, if_neg h1]
      rw [show (hc :: l).filter (fun x => x.1 = attr)
            = l.filter (fun x => x.1 = attr) from by
          simp [List.filter_cons, h1]]

theorem handicapProj_foldHandicap (l : List (HandicapAttributeName × String))
    (attr : HandicapAttributeName) :
    handicapProj (foldHandicap l) attr
      = ((l.filter (fun hc => hc.1 = attr)).map Prod.snd).getLast? := by
  rw [foldHandicap, handicapProj_foldl]
  show Option.or _ none = _
  rcases h : ((l.filter (fun hc => hc.1 = attr)).map Prod.snd).getLast?
    with _ | b <;> rw [h] <;> rfl

theorem foldl_applyHandicap_isSome (xs : List (HandicapAttributeName × String))
    (h : Handicap) : (xs.foldl applyHandicap (some h)).isSome := by
  induction xs generalizing h with
  | nil => rfl
  | cons x l ih => exact ih _

theorem foldHandicap_eq_none_iff (l : List (HandicapAttributeName × String)) :
    foldHandicap l = none ↔ l = [] := by
  cases l with
  | nil => simp [foldHandicap]
  | cons x xs =>
    simp only [foldHandicap, List.foldl_cons]
    constructor
    · intro h
      have hs := foldl_applyHandicap_isSome xs (emptyHandicap.setAttr x)
      have h2 : List.foldl applyHandicap (some (emptyHandicap.setAttr x)) xs
          = none := h
      rw [h2] at hs
      simp at hs
    · intro h
      simp at h

end Unip

namespace Unip

/-! ## Builder invariant -/

theorem updateAthlete_key (row : UniPRow) (entry : Entry) (key : String)
    (a : Athlete) : (updateAthlete row entry key a).key = a.key := by
  unfold updateAthlete
  by_cases h : a.key = key
  · rw [if_pos h]
    rcases getHandicapFromClass row.birthYearOrClass with _ | hc <;> rfl
  · rw [if_neg h]

theorem updateAthlete_athleteId (row : UniPRow) (entry : Entry) (key : String)
    (a : Athlete) : (updateAthlete row entry key a).athleteId = a.athleteId := by
  unfold updateAthlete
  by_cases h : a.key = key
  · rw [if_pos h]
    rcases getHandicapFromClass row.birthYearOrClass with _ | hc <;> rfl
  · rw [if_neg h]

theorem updateAthlete_of_ne {row : UniPRow} {entry : Entry} {key : String}
    {a : Athlete} (h : ¬ a.key = key) : updateAthlete row entry key a = a := by
  unfold updateAthlete
  rw [if_neg h]

theorem updateAthlete_entries {row : UniPRow} {entry : Entry} {key : String}
    {a : Athlete} (h : a.key = key) :
    (updateAthlete row entry key a).entries = a.entries ++ [entry] := by
  unfold updateAthlete
  rw [if_pos h]
  rcases getHandicapFromClass row.birthYearOrClass with _ | hc <;> rfl

theorem updateAthlete_handicap {row : UniPRow} {entry : Entry} {key : String}
    {a : Athlete} (h : a.key = key) :
    (updateAthlete row entry key a).handicap
      = match getHandicapFromClass row.birthYearOrClass with
        | some hc => applyHandicap a.handicap hc
        | none => a.handicap := by
  unfold updateAthlete
  rw [if_pos h]
  rcases getHandicapFromClass row.birthYearOrClass with _ | hc <;> rfl

theorem matchedIndiv_append (m : EventsByNumber) (p q : List UniPRow) :
    matchedIndiv m (p ++ q) = matchedIndiv m p ++ matchedIndiv m q := by
  simp [matchedIndiv, List.filter_append]

theorem AthletesInv_congr {cys : Nat} {m : EventsByNumber}
    {p q : List UniPRow} {s : BuildState}
    (h : matchedIndiv m p = matchedIndiv m q)
    (hinv : AthletesInv cys m p s) : AthletesInv cys m q s := by
  unfold AthletesInv rowsForKey at hinv ⊢
  rw [← h]
  exact hinv

theorem foldHandicap_append_one (l : List (HandicapAttributeName × String))
    (hc : HandicapAttributeName × String) :
    foldHandicap (l ++ [hc]) = applyHandicap (foldHandicap l) hc := by
  unfold foldHandicap
  rw [List.foldl_append]
  rfl

theorem buildStep_inv (cys : Nat) (m : EventsByNumber) (p : List UniPRow)
    (r : UniPRow) (s : BuildState) (h : AthletesInv cys m p s) :
    AthletesInv cys m (p ++ [r]) (buildStep cys m s r) := by
  obtain ⟨h1, h2, h3, h4, h5⟩ := h
  rcases hfm : findMatchingLenexEvent r m with _ | ev
  · have hkeep : indivKeep m r = false := by simp [indivKeep, hfm]
    have hmi : matchedIndiv m p = matchedIndiv m (p ++ [r]) := by
      rw [matchedIndiv_append]
      simp [matchedIndiv, hkeep]
    have hres : buildStep cys m s r
        = { s with skippedDuringBuild := s.skippedDuringBuild + 1 } := by
      simp [buildStep, hfm]
    rw [hres]
    exact AthletesInv_congr hmi ⟨h1, h2, h3, h4, h5⟩
  · by_cases hrel : 1 < r.relayCount
    · have hkeep : indivKeep m r = false := by simp [indivKeep, hrel]
      have hmi : matchedIndiv m p = matchedIndiv m (p ++ [r]) := by
        rw [matchedIndiv_append]
        simp [matchedIndiv, hkeep]
      have hres : buildStep cys m s r
          = { s with
              relays := s.relays ++
                [{ number := toString s.nextRelayNumber
                   name := optOfString r.lastName
                   agemin := "-1"
                   agemax := (getJuniorRelayAgeMax r ev).getD "-1"
                   agetotalmin :=
                     ((getMastersRelayAgeTotalRange r).map Prod.fst).getD "-1"
                   agetotalmax :=
                     ((getMastersRelayAgeTotalRange r).map Prod.snd).getD "-1"
                   gender := optOfString r.gender
                   entries := [createEntry r ev] }]
              nextRelayNumber := s.nextRelayNumber + 1 } := by
        simp [buildStep, hfm, if_pos hrel]
      rw [hres]
      exact AthletesInv_congr hmi ⟨h1, h2, h3, h4, h5⟩
    · have hkeep : indivKeep m r = true := by simp [indivKeep, hfm, hrel]
      have hmi : matchedIndiv m (p ++ [r]) = matchedIndiv m p ++ [r] := by
        rw [matchedIndiv_append]
        simp [matchedIndiv, hkeep]
      have hrows : ∀ k, rowsForKey cys m (p ++ [r]) k
          = rowsForKey cys m p k
            ++ (if athleteKeyOf cys r = k then [r] else []) := by
        intro k
        unfold rowsForKey
        rw [hmi, List.filter_append]
        congr 1
        by_cases hk : athleteKeyOf cys r = k
        · simp [hk]
        · simp [hk]
      have hentryOf : entryOf m r = some (createEntry r ev) := by
        simp [entryOf, hfm]
      set key := athleteKeyOf cys r with hkey
      set entry := createEntry r ev with hentry
      by_cases hex : s.athletes.any (fun a => a.key = key)
      · -- the athlete already exists: every athlete is mapped through
        -- `updateAthlete`, and only the key owner changes
        have hres : buildStep cys m s r
            = { s with athletes := s.athletes.map (updateAthlete r entry key) } := by
          simp only [buildStep, hfm]
          rw [if_neg hrel, if_pos hex]
        have hkmem : key ∈ (matchedIndiv m p).map (athleteKeyOf cys) := by
          rcases List.any_eq_true.mp hex with ⟨a, ha, hak⟩
          have hak2 : a.key = key := by simpa using hak
          have : key ∈ s.athletes.map (fun a => a.key) :=
            List.mem_map.mpr ⟨a, ha, hak2⟩
          rw [h1] at this
          exact mem_dedupFirst.mp this
        rw [hres]
        refine ⟨?_, ?_, ?_, ?_, ?_⟩
        · rw [List.map_map]
          have : s.athletes.map (fun a => (updateAthlete r entry key a).key)
              = s.athletes.map (fun a => a.key) :=
            List.map_congr_left (fun a _ => updateAthlete_key r entry key a)
          rw [show ((fun a => a.key) ∘ updateAthlete r entry key)
              = fun a => (updateAthlete r entry key a).key from rfl]
          rw [this, h1, hmi, List.map_append]
          rw [show (List.map (athleteKeyOf cys) [r]) = [key] from rfl]
          rw [dedupFirst_concat, if_pos hkmem]
        · simpa using h2
        · rw [List.map_map]
          have : s.athletes.map (fun a => (updateAthlete r entry key a).athleteId)
              = s.athletes.map (fun a => a.athleteId) :=
            List.map_congr_left (fun a _ => updateAthlete_athleteId r entry key a)
          rw [show ((fun a => a.athleteId) ∘ updateAthlete r entry key)
              = fun a => (updateAthlete r entry key a).athleteId from rfl]
          rw [this, h3]
          simp
        · intro a2 ha2
          rcases List.mem_map.mp ha2 with ⟨a, ha, rfl⟩
          rw [updateAthlete_key, hrows]
          by_cases hak : a.key = key
          · rw [updateAthlete_entries hak, hak, if_pos rfl,
              List.filterMap_append, h4 a ha, hak]
            simp [hentryOf]
          · rw [updateAthlete_of_ne hak,
              if_neg (fun hc => hak (Eq.symm hc)), List.append_nil]
            exact h4 a ha
        · intro a2 ha2
          rcases List.mem_map.mp ha2 with ⟨a, ha, rfl⟩
          rw [updateAthlete_key, hrows]
          by_cases hak : a.key = key
          · rw [updateAthlete_handicap hak, hak, if_pos rfl,
              List.filterMap_append, h5 a ha, hak]
            rcases hg : getHandicapFromClass r.birthYearOrClass with _ | hc
            · simp [hg]
            · simp only [hg]
              rw [show List.filterMap
                    (fun r => getHandicapFromClass r.birthYearOrClass) [r]
                  = [hc] from by simp [hg]]
              rw [foldHandicap_append_one]
          · rw [updateAthlete_of_ne hak,
              if_neg (fun hc => hak (Eq.symm hc)), List.append_nil]
            exact h5 a ha
      · -- a fresh athlete is appended and then receives the entry
        have hnotmem : key ∉ (matchedIndiv m p).map (athleteKeyOf cys) := by
          intro hmem
          have : key ∈ s.athletes.map (fun a => a.key) := by
            rw [h1]
            exact mem_dedupFirst.mpr hmem
          rcases List.mem_map.mp this with ⟨a, ha, hak⟩
          exact hex (List.any_eq_true.mpr ⟨a, ha, by simpa using hak⟩)
        have hallne : ∀ a ∈ s.athletes, ¬ a.key = key := by
          intro a ha hak
          exact hex (List.any_eq_true.mpr ⟨a, ha, by simpa using hak⟩)
        set newA : Athlete :=
          { key := key
            athleteId := s.nextAthleteId
            birthdate := (inferBirthYear cys r).map (fun b => b ++ "-01-01")
            firstname := optOfString r.firstName
            lastname := optOfString r.lastName
            gender := optOfString r.gender
            entries := []
            handicap := none } with hnewA
        have hres : buildStep cys m s r
            = { s with
                athletes := (s.athletes ++ [newA]).map (updateAthlete r entry key)
                nextAthleteId := s.nextAthleteId + 1 } := by
          simp only [buildStep, hfm]
          rw [if_neg hrel, if_neg hex]
        have hmapold : s.athletes.map (updateAthlete r entry key) = s.athletes := by
          have : s.athletes.map (updateAthlete r entry key) = s.athletes.map id :=
            List.map_congr_left
              (fun a ha => updateAthlete_of_ne (hallne a ha))
          simpa using this
        have hsplit : (s.athletes ++ [newA]).map (updateAthlete r entry key)
            = s.athletes ++ [updateAthlete r entry key newA] := by
          rw [List.map_append, hmapold]
          rfl
        have hnewkey : (updateAthlete r entry key newA).key = key :=
          updateAthlete_key r entry key newA
        have hrowsnil : rowsForKey cys m p key = [] := by
          unfold rowsForKey
          rw [List.filter_eq_nil_iff]
          intro x hx hkx
          exact hnotmem (List.mem_map.mpr ⟨x, hx, by simpa using hkx⟩)
        have hnewAkey : newA.key = key := rfl
        rw [hres]
        refine ⟨?_, ?_, ?_, ?_, ?_⟩
        · rw [hsplit, List.map_append, h1, hmi, List.map_append]
          rw [show (List.map (athleteKeyOf cys) [r]) = [key] from rfl]
          rw [dedupFirst_concat, if_neg hnotmem]
          rw [show (List.map (fun a => a.key) [updateAthlete r entry key newA])
              = [key] from by simp [hnewkey]]
        · rw [hsplit]
          simp [h2]
        · rw [hsplit, List.map_append, h3]
          have hid : (updateAthlete r entry key newA).athleteId = s.nextAthleteId :=
            updateAthlete_athleteId r entry key newA
          rw [show (List.map (fun a => a.athleteId) [updateAthlete r entry key newA])
              = [s.nextAthleteId] from by simp [hid]]
          rw [h2]
          simp only [List.length_append, List.length_map, List.length_cons,
            List.length_nil]
          rw [range'_snoc]
          have : 1 + s.athletes.length = s.athletes.length + 1 := by omega
          rw [this]
        · intro a2 ha2
          rw [hsplit] at ha2
          rcases List.mem_append.mp ha2 with ha | ha
          · rw [hrows]
            rw [if_neg (fun hc => (hallne a2 ha) (Eq.symm hc)), List.append_nil]
            exact h4 a2 ha
          · have ha2eq : a2 = updateAthlete r entry key newA :=
              List.mem_singleton.mp ha
            subst ha2eq
            rw [hnewkey, hrows, if_pos rfl, hrowsnil, List.nil_append]
            rw [updateAthlete_entries hnewAkey]
            simp [hentryOf]
        · intro a2 ha2
          rw [hsplit] at ha2
          rcases List.mem_append.mp ha2 with ha | ha
          · rw [hrows]
            rw [if_neg (fun hc => (hallne a2 ha) (Eq.symm hc)), List.append_nil]
            exact h5 a2 ha
          · have ha2eq : a2 = updateAthlete r entry key newA :=
              List.mem_singleton.mp ha
            subst ha2eq
            rw [hnewkey, hrows, if_pos rfl, hrowsnil, List.nil_append]
            rw [updateAthlete_handicap hnewAkey]
            rcases hg : getHandicapFromClass r.birthYearOrClass with _ | hc
            · simp [hg, foldHandicap]
            · simp only [hg]
              rw [show List.filterMap
                    (fun r => getHandicapFromClass r.birthYearOrClass) [r]
                  = [hc] from by simp [hg]]
              rfl

theorem buildFoldl_inv (cys : Nat) (m : EventsByNumber) (rows : List UniPRow) :
    ∀ (p : List UniPRow) (s : BuildState), AthletesInv cys m p s →
      AthletesInv cys m (p ++ rows) (rows.foldl (buildStep cys m) s) := by
  induction rows with
  | nil => intro p s h; simpa using h
  | cons r rs ih =>
    intro p s h
    have hstep := buildStep_inv cys m p r s h
    have := ih (p ++ [r]) (buildStep cys m s r) hstep
    rw [List.append_assoc] at this
    simpa using this

theorem build_inv (cys : Nat) (m : EventsByNumber) (rows : List UniPRow) :
    AthletesInv cys m rows (buildLenexEntries cys rows m) := by
  have hinit : AthletesInv cys m [] ⟨[], [], 1, 1, 0⟩ := by
    refine ⟨rfl, rfl, rfl, ?_, ?_⟩ <;> intro a ha <;> simp at ha
  have := buildFoldl_inv cys m rows [] ⟨[], [], 1, 1, 0⟩ hinit
  simpa [buildLenexEntries] using this

end Unip

namespace Unip

/-! ## Claim C5 -/

/-- C5: for a row with a known event number that matches no catalog
event's number, the cross-validator returns exactly the single issue
`Invalid event` and performs none of the other checks. -/
theorem C5_invalid_event_terminal (cys : Nat) (row : UniPRow)
    (m : EventsByNumber) (n : Nat) (hn : row.eventNumber = some n)
    (hc : m (toString n) = []) :
    validateRowAgainstLenex cys row m true = ["Invalid event"] := by
  simp [validateRowAgainstLenex, validateWithCandidates, hn, hc]

/-- C5 witness: a concrete row against an empty catalog. -/
theorem C5_invalid_event_terminal_witness :
    validateRowAgainstLenex 24 c5Row (fun _ => []) true = ["Invalid event"] :=
  C5_invalid_event_terminal 24 c5Row (fun _ => []) 9 rfl rfl

/-! ## Claim C6 -/

/-- C6 counterexample: `"ab:cd"` is not `mm:ss.hh`-shaped and does not
contain two colons, so by the claim it should yield no entry time, but
the conversion pads it to `"00:ab:cd"`. -/
theorem C6_counterexample_one_colon :
    specMmSsHhShaped "ab:cd" = false
      ∧ ("ab:cd" : String).data.count ':' = 1
      ∧ toLenexEntryTime (some "ab:cd") = some "00:ab:cd" := by
  decide

/-- C6 (amended): the conversion pads any value whose trimmed form
contains exactly one colon (in particular `mm:ss.hh`-shaped values) with
a leading `00:` hours field, passes a value with exactly two colons
through trimmed, and yields no entry time otherwise (including an absent
value). -/
theorem C6_entry_time_by_colon_count :
    toLenexEntryTime none = none ∧
    ∀ s : String,
      ((jsTrim s).data.count ':' = 1 →
        toLenexEntryTime (some s) = some ("00:" ++ jsTrim s)) ∧
      ((jsTrim s).data.count ':' = 2 →
        toLenexEntryTime (some s) = some (jsTrim s)) ∧
      ((jsTrim s).data.count ':' ≠ 1 → (jsTrim s).data.count ':' ≠ 2 →
        toLenexEntryTime (some s) = none) := by
  refine ⟨rfl, ?_⟩
  intro s
  have hlen : (splitChar ':' (jsTrim s)).length = (jsTrim s).data.count ':' + 1 := by
    unfold splitChar
    rw [List.length_map, length_splitCharList]
  refine ⟨?_, ?_, ?_⟩
  · intro h1
    have hs : ¬ s = "" := by
      intro he
      subst he
      simp [jsTrim, trimList] at h1
    show (if s = "" then none
      else if (splitChar ':' (jsTrim s)).length = 2 then some ("00:" ++ jsTrim s)
      else if (splitChar ':' (jsTrim s)).length = 3 then some (jsTrim s)
      else none) = some ("00:" ++ jsTrim s)
    rw [if_neg hs, hlen, h1]
    rfl
  · intro h2
    have hs : ¬ s = "" := by
      intro he
      subst he
      simp [jsTrim, trimList] at h2
    show (if s = "" then none
      else if (splitChar ':' (jsTrim s)).length = 2 then some ("00:" ++ jsTrim s)
      else if (splitChar ':' (jsTrim s)).length = 3 then some (jsTrim s)
      else none) = some (jsTrim s)
    rw [if_neg hs, hlen, h2]
    rfl
  · intro h1 h2
    by_cases hs : s = ""
    · subst hs
      rfl
    · show (if s = "" then none
        else if (splitChar ':' (jsTrim s)).length = 2 then some ("00:" ++ jsTrim s)
        else if (splitChar ':' (jsTrim s)).length = 3 then some (jsTrim s)
        else none) = none
      rw [if_neg hs, hlen,
        if_neg (by omega : ¬ (jsTrim s).data.count ':' + 1 = 2),
        if_neg (by omega : ¬ (jsTrim s).data.count ':' + 1 = 3)]

/-- C6 witness: a regular `mm:ss.hh` qualification time gets the hour
padding. -/
theorem C6_entry_time_witness :
    ("01:23.45" : String).data.count ':' = 1
      ∧ toLenexEntryTime (some "01:23.45") = some "00:01:23.45" := by
  refine ⟨by decide, ?_⟩
  have h := (C6_entry_time_by_colon_count.2 "01:23.45").1 (by decide)
  exact h

/-! ## Claim C7 -/

/-- C7: a two-digit birth-year marker `YY` is resolved to the current
century when `YY` does not exceed the current year's last two digits and
to the prior century otherwise; `M65` parses to gender `M` and age-group
code `Born YY=65`, and with current year 2024 the inferred birth year is
1965. -/
theorem C7_two_digit_birth_year (currentYear : Nat) (d1 d2 : Char)
    (hcy1 : 2000 ≤ currentYear) (hcy2 : currentYear < 2100)
    (hd1 : d1.isDigit = true) (hd2 : d2.isDigit = true) :
    (strToNat ⟨[d1, d2]⟩ ≤ currentYear % 100 →
       inferFullYearFromAgeGroup (currentYear % 100)
           ("Born YY=" ++ (⟨[d1, d2]⟩ : String))
         = some (toString (2000 + strToNat ⟨[d1, d2]⟩))
       ∧ (2000 + strToNat ⟨[d1, d2]⟩) / 100 = currentYear / 100)
    ∧ (currentYear % 100 < strToNat ⟨[d1, d2]⟩ →
       inferFullYearFromAgeGroup (currentYear % 100)
           ("Born YY=" ++ (⟨[d1, d2]⟩ : String))
         = some (toString (1900 + strToNat ⟨[d1, d2]⟩))
       ∧ (1900 + strToNat ⟨[d1, d2]⟩) / 100 = currentYear / 100 - 1)
    ∧ parseGenderAndAgeGroup "M65" = ⟨"M", "Born YY=65", []⟩
    ∧ inferFullYearFromAgeGroup 24 "Born YY=65" = some "1965" := by
  have hb1 : 48 ≤ d1.toNat ∧ d1.toNat ≤ 57 := by
    simp [Char.isDigit] at hd1
    exact hd1
  have hb2 : 48 ≤ d2.toNat ∧ d2.toNat ≤ 57 := by
    simp [Char.isDigit] at hd2
    exact hd2
  have hyy : strToNat ⟨[d1, d2]⟩ ≤ 99 := by
    show 10 * (10 * 0 + (d1.toNat - '0'.toNat)) + (d2.toNat - '0'.toNat) ≤ 99
    show 10 * (10 * 0 + (d1.toNat - 48)) + (d2.toNat - 48) ≤ 99
    omega
  have hstr : ("Born YY=" ++ (⟨[d1, d2]⟩ : String))
      = ⟨['B', 'o', 'r', 'n', ' ', 'Y', 'Y', '=', d1, d2]⟩ :=
    strEq_of_data (by rw [strData_append]; rfl)
  have hnd : isNDigits 2 (⟨[d1, d2]⟩ : String) = true := by
    simp [isNDigits, hd1, hd2]
  have hinfer : ∀ cys : Nat, inferFullYearFromAgeGroup cys
      ("Born YY=" ++ (⟨[d1, d2]⟩ : String))
      = some (toString (if strToNat ⟨[d1, d2]⟩ ≤ cys
          then 2000 + strToNat ⟨[d1, d2]⟩ else 1900 + strToNat ⟨[d1, d2]⟩)) := by
    intro cys
    rw [hstr]
    show (if isNDigits 2 (⟨[d1, d2]⟩ : String)
        then some (toString (if strToNat (⟨[d1, d2]⟩ : String) ≤ cys
          then 2000 + strToNat ⟨[d1, d2]⟩ else 1900 + strToNat ⟨[d1, d2]⟩))
        else none)
      = some (toString (if strToNat ⟨[d1, d2]⟩ ≤ cys
          then 2000 + strToNat ⟨[d1, d2]⟩ else 1900 + strToNat ⟨[d1, d2]⟩))
    rw [if_pos hnd]
  have hmod : currentYear % 100 = currentYear - 2000 := by omega
  refine ⟨?_, ?_, by decide, by decide⟩
  · intro hle
    refine ⟨by rw [hinfer, if_pos hle], by omega⟩
  · intro hgt
    refine ⟨by rw [hinfer, if_neg (by omega)], by omega⟩

/-- C7 witness at `YY = 65`, current year 2024. -/
theorem C7_two_digit_birth_year_witness :
    inferFullYearFromAgeGroup (2024 % 100) ("Born YY=" ++ (⟨['6', '5']⟩ : String))
        = some (toString (1900 + strToNat ⟨['6', '5']⟩))
      ∧ parseGenderAndAgeGroup "M65" = ⟨"M", "Born YY=65", []⟩ := by
  have h := C7_two_digit_birth_year 2024 '6' '5' (by decide) (by decide)
    (by decide) (by decide)
  exact ⟨(h.2.1 (by decide)).1, h.2.2.1⟩

end Unip

namespace Unip

/-! ## Claim C9 -/

/-- C9: the row parser throws exactly when the input has no non-blank
lines; otherwise it returns the club name (first non-blank line, trimmed)
and one row per further non-blank line — malformed rows never abort the
parse. -/
theorem C9_parser_totality (content : String) :
    (nonBlankLines content = [] →
      parseUniP content = Except.error "UNI_p file is empty.")
    ∧ ∀ club rest, nonBlankLines content = club :: rest →
        ∃ rows, parseUniP content = Except.ok ⟨jsTrim club, rows⟩
          ∧ rows.length = rest.length := by
  constructor
  · intro h
    unfold parseUniP
    rw [h]
  · intro club rest h
    refine ⟨rest.mapIdx (fun i line => parseRow (i + 2) line), ?_, ?_⟩
    · unfold parseUniP
      rw [h]
    · simp

/-- C9 witness: one club line and one (well-formed) data row. -/
theorem C9_parser_totality_witness :
    ∃ rows, parseUniP "Club\n1,100,FR,Doe,Jan,,M90,2000,,,,,,"
        = Except.ok ⟨"Club", rows⟩ ∧ rows.length = 1 := by
  have h := (C9_parser_totality "Club\n1,100,FR,Doe,Jan,,M90,2000,,,,,,").2
    "Club" ["1,100,FR,Doe,Jan,,M90,2000,,,,,,"] (by decide)
  exact h

/-! ## Claim C4 -/

/-- C4 counterexample: the relay regexp accepts a zero multiplier, so the
distance field `0*50` parses to relay count 0 (not ≥ 1, and not the
"anything else" fallback the claim prescribes for a non-positive `R`). -/
theorem C4_counterexample_zero_multiplier :
    parseDistance "0*50" = ⟨0, some 50, []⟩
      ∧ ¬ 1 ≤ (parseDistance "0*50").relayCount
      ∧ (parseRow 2 "5,0*50,FR,Team,,,MSR,,,,,,,,").relayCount = 0 := by
  decide

/-- C4 (amended): a distance field of the form `R*D` with digit strings
`R` and `D` yields relay count `Number(R)` — which is 0 when the digits
of `R` denote zero — and distance `Number(D)`; a plain integer yields
relay count 1; anything else yields relay count 1, an absent distance and
one issue.  Hence every parsed row's relay count is at least 1 except
when the relay multiplier digits denote zero. -/
theorem C4_relay_count_amended :
    (∀ s : String,
      (∀ r d, relayMatchParse (jsTrim s) = some (r, d) →
          parseDistance s = ⟨strToNat r, some (strToNat d), []⟩)
      ∧ (relayMatchParse (jsTrim s) = none → isDigits (jsTrim s) = true →
          parseDistance s = ⟨1, some (strToNat (jsTrim s)), []⟩)
      ∧ (relayMatchParse (jsTrim s) = none → isDigits (jsTrim s) = false →
          parseDistance s = ⟨1, none, ["Field 2 (distance) is invalid"]⟩)
      ∧ ((∀ r d, relayMatchParse (jsTrim s) = some (r, d) → strToNat r ≠ 0) →
          1 ≤ (parseDistance s).relayCount))
    ∧ (∀ (ln : Nat) (line : String),
        (∀ r d, relayMatchParse (jsTrim (fieldAt line 1)) = some (r, d) →
          strToNat r ≠ 0) →
        1 ≤ (parseRow ln line).relayCount) := by
  have main : ∀ s : String,
      (∀ r d, relayMatchParse (jsTrim s) = some (r, d) →
          parseDistance s = ⟨strToNat r, some (strToNat d), []⟩)
      ∧ (relayMatchParse (jsTrim s) = none → isDigits (jsTrim s) = true →
          parseDistance s = ⟨1, some (strToNat (jsTrim s)), []⟩)
      ∧ (relayMatchParse (jsTrim s) = none → isDigits (jsTrim s) = false →
          parseDistance s = ⟨1, none, ["Field 2 (distance) is invalid"]⟩)
      ∧ ((∀ r d, relayMatchParse (jsTrim s) = some (r, d) → strToNat r ≠ 0) →
          1 ≤ (parseDistance s).relayCount) := by
    intro s
    refine ⟨?_, ?_, ?_, ?_⟩
    · intro r d h
      simp [parseDistance, h]
    · intro h hd
      simp [parseDistance, h, hd]
    · intro h hd
      simp [parseDistance, h, hd]
    · intro hno
      rcases hm : relayMatchParse (jsTrim s) with _ | ⟨r, d⟩
      · by_cases hd : isDigits (jsTrim s)
        · simp [parseDistance, hm, hd]
        · simp [parseDistance, hm, hd]
      · have hr := hno r d hm
        simp [parseDistance, hm]
        omega
  refine ⟨main, ?_⟩
  intro ln line h
  exact (main (fieldAt line 1)).2.2.2 h

/-- C4 witness: `4*50` yields relay count 4 / distance 50, and a relay
row with that distance field has relay count ≥ 1. -/
theorem C4_relay_count_witness :
    parseDistance "4*50" = ⟨4, some 50, []⟩
      ∧ 1 ≤ (parseRow 2 "12,4*50,FR,CityTeam Relay,,,,,,,,,,,").relayCount := by
  refine ⟨(C4_relay_count_amended.1 "4*50").1 "4" "50" (by decide), ?_⟩
  refine C4_relay_count_amended.2 2 "12,4*50,FR,CityTeam Relay,,,,,,,,,,," ?_
  intro r d hm
  have hv : relayMatchParse
      (jsTrim (fieldAt "12,4*50,FR,CityTeam Relay,,,,,,,,,,," 1))
      = some ("4", "50") := by decide
  rw [hv] at hm
  have h3 := Option.some.inj hm
  cases h3
  decide

end Unip

namespace Unip

/-! ## Claim C1 -/

theorem mem_ite_lists {x : String} {c : Prop} [Decidable c]
    {l1 l2 : List String} (h : x ∈ if c then l1 else l2) :
    x ∈ l1 ∨ x ∈ l2 := by
  split at h
  · exact Or.inl h
  · exact Or.inr h

/-- C1: when every compatible candidate of a row has a forbidden round,
the cross-validator emits exactly one `Registration for <ROUND>` issue
per distinct round occurring among the compatible candidates, and the
entry builder's matcher selects no winning event for the row. -/
theorem C1_forbidden_round_issues (cys : Nat) (row : UniPRow)
    (m : EventsByNumber)
    (hall : ∀ e ∈ compatibleCandidatesOf row m,
      e.round ∈ forbiddenRegistrationRounds) :
    (∀ r, (validateRowAgainstLenex cys row m true).count ("Registration for " ++ r)
        = if r ∈ (compatibleCandidatesOf row m).map (fun e => e.round)
          then 1 else 0)
    ∧ findMatchingLenexEvent row m = none := by
  constructor
  · intro r
    have hheadR : ("Registration for " ++ r).data.head? = some 'R' := rfl
    have hcnt1 : ∀ s : String, s.data.head? = some 'I' →
        List.count ("Registration for " ++ r) [s] = 0 := by
      intro s hs
      refine List.count_eq_zero.mpr (fun hm => ?_)
      have := List.mem_singleton.mp hm
      exact str_ne_of_head (by rw [hheadR, hs]; decide) this
    rcases hn : row.eventNumber with _ | n
    · have hv : validateRowAgainstLenex cys row m true = [] := by
        simp [validateRowAgainstLenex, hn]
      have hcmp : compatibleCandidatesOf row m = [] := by
        simp [compatibleCandidatesOf, hn]
      rw [hv, hcmp]
      simp
    · have hcmp : compatibleCandidatesOf row m
          = (m (toString n)).filter (compatiblePred row) := by
        simp [compatibleCandidatesOf, hn]
      have hv : validateRowAgainstLenex cys row m true
          = validateWithCandidates cys row n (m (toString n)) := by
        simp [validateRowAgainstLenex, hn]
      rw [hv, hcmp]
      by_cases hcand : m (toString n) = []
      · rw [validateWithCandidates, if_pos (by simp [hcand])]
        rw [hcand, List.filter_nil]
        rw [hcnt1 "Invalid event" rfl]
        simp
      · rw [validateWithCandidates,
          if_neg (by simpa [List.isEmpty_iff] using hcand)]
        rw [List.count_append, List.count_append, List.count_append,
          List.count_append]
        have hL1 : List.count ("Registration for " ++ r)
            (if (m (toString n)).any (fun e => e.relayCount == row.relayCount)
              then [] else ["Invalid length"]) = 0 := by
          split
          · rfl
          · exact hcnt1 _ rfl
        have hL2 : List.count ("Registration for " ++ r)
            (if (m (toString n)).any (fun e => some e.distance == row.distance)
              then [] else ["Invalid distance"]) = 0 := by
          split
          · rfl
          · exact hcnt1 _ rfl
        have hL3 : List.count ("Registration for " ++ r)
            (if !(row.stroke == "")
                && !((m (toString n)).any (fun e => e.stroke == row.stroke))
              then ["Invalid style"] else []) = 0 := by
          split
          · exact hcnt1 _ rfl
          · rfl
        have hL4 : List.count ("Registration for " ++ r)
            (if !(row.gender == "")
                && !((m (toString n)).any (fun e => e.gender == row.gender))
              then ["Invalid gender"] else []) = 0 := by
          split
          · exact hcnt1 _ rfl
          · rfl
        rw [hL1, hL2, hL3, hL4]
        by_cases hcE : (m (toString n)).filter (compatiblePred row) = []
        · rw [if_pos (by simpa [List.isEmpty_iff] using hcE), hcE]
          simp
        · rw [if_neg (by simpa [List.isEmpty_iff] using hcE)]
          have hallc : ∀ e ∈ (m (toString n)).filter (compatiblePred row),
              e.round ∈ forbiddenRegistrationRounds := by
            intro e he
            exact hall e (by rw [hcmp]; exact he)
          have hanyf : (((m (toString n)).filter (compatiblePred row)).any
              (fun e => !isForbiddenRound e.round)) = false := by
            rw [List.any_eq_false]
            intro e he hpe
            have hfr : isForbiddenRound e.round = true := by
              simpa [isForbiddenRound] using hallc e he
            rw [hfr] at hpe
            exact absurd hpe (by decide)
          simp only [validateEligibility]
          rw [List.count_append, List.count_append]
          have hjc : ∀ l : List String,
              (∀ x ∈ l, x = "Missing JUNIOR age group in Lenex event for junior relay") →
              List.count ("Registration for " ++ r) l = 0 := by
            intro l hl
            refine List.count_eq_zero.mpr (fun hm => ?_)
            exact str_ne_of_head (by rw [hheadR]; decide) (hl _ hm)
          have hjunior : List.count ("Registration for " ++ r)
              (if 1 < row.relayCount
                  && (jsToLower (jsTrim row.ageGroupCode) == "junior") then
                if (if ((m (toString n)).filter (compatiblePred row)).filter
                      (fun e => !isForbiddenRound e.round) |>.isEmpty then
                      (m (toString n)).filter (compatiblePred row)
                    else
                      ((m (toString n)).filter (compatiblePred row)).filter
                        (fun e => !isForbiddenRound e.round)).any (fun e =>
                    e.ageGroups.any (fun g => jsToLower (jsTrim g.name) == "junior"))
                then []
                else ["Missing JUNIOR age group in Lenex event for junior relay"]
              else []) = 0 := by
            apply List.count_eq_zero.mpr
            intro hm
            rcases mem_ite_lists hm with hm1 | hm2
            · rcases mem_ite_lists hm1 with hm3 | hm4
              · exact absurd hm3 (List.not_mem_nil _)
              · exact str_ne_of_head (by rw [hheadR]; decide)
                  (List.mem_singleton.mp hm4)
            · exact absurd hm2 (List.not_mem_nil _)
          have hage : ∀ l : List String,
              (∀ x ∈ l, ∃ a b : String,
                x = "Invalid age group (age " ++ a ++ " not allowed for event "
                  ++ b ++ ")") →
              List.count ("Registration for " ++ r) l = 0 := by
            intro l hl
            refine List.count_eq_zero.mpr (fun hm => ?_)
            obtain ⟨a, b, hx⟩ := hl _ hm
            exact str_ne_of_head
              (by
                rw [hheadR,
                  show ("Invalid age group (age " ++ a ++ " not allowed for event "
                    ++ b ++ ")").data.head? = some 'I' from rfl]
                decide) hx
          rw [hjunior]
          have hagecnt : List.count ("Registration for " ++ r)
              (match (if ((m (toString n)).filter (compatiblePred row)).filter
                      (fun e => !isForbiddenRound e.round) |>.isEmpty then
                      (m (toString n)).filter (compatiblePred row)
                    else
                      ((m (toString n)).filter (compatiblePred row)).filter
                        (fun e => !isForbiddenRound e.round)).head? with
               | none => []
               | some first =>
                 match getAgeAtEventYear cys row first with
                 | none => []
                 | some swimmerAge =>
                   if (if ((m (toString n)).filter (compatiblePred row)).filter
                        (fun e => !isForbiddenRound e.round) |>.isEmpty then
                        (m (toString n)).filter (compatiblePred row)
                      else
                        ((m (toString n)).filter (compatiblePred row)).filter
                          (fun e => !isForbiddenRound e.round)).any
                      (fun e => isAgeInAnyEventAgeGroup swimmerAge e)
                   then []
                   else
                     ["Invalid age group (age " ++ toString swimmerAge
                       ++ " not allowed for event " ++ toString n ++ ")"]) = 0 := by
            apply hage
            intro x hx
            rcases hh : (if ((m (toString n)).filter (compatiblePred row)).filter
                  (fun e => !isForbiddenRound e.round) |>.isEmpty then
                  (m (toString n)).filter (compatiblePred row)
                else
                  ((m (toString n)).filter (compatiblePred row)).filter
                    (fun e => !isForbiddenRound e.round)).head? with _ | first
            · rw [hh] at hx
              exact absurd hx (List.not_mem_nil _)
            · rw [hh] at hx
              dsimp only at hx
              rcases ha : getAgeAtEventYear cys row first with _ | age
              · rw [ha] at hx
                exact absurd hx (List.not_mem_nil _)
              · rw [ha] at hx
                dsimp only at hx
                rcases mem_ite_lists hx with h1 | h2
                · exact absurd h1 (List.not_mem_nil _)
                · exact ⟨_, _, List.mem_singleton.mp h2⟩
          rw [hagecnt]
          rw [if_neg (by rw [hanyf]; decide)]
          have hfself : (dedupFirst (((m (toString n)).filter
              (compatiblePred row)).map (fun e => e.round))).filter
                isForbiddenRound
              = dedupFirst (((m (toString n)).filter
                (compatiblePred row)).map (fun e => e.round)) := by
            refine List.filter_eq_self.mpr (fun x hx => ?_)
            have hx2 := mem_dedupFirst.mp hx
            rcases List.mem_map.mp hx2 with ⟨e, he, heq⟩
            subst heq
            simpa [isForbiddenRound] using hallc e he
          rw [hfself]
          rw [List.count_map_of_injective _
            (fun round => "Registration for " ++ round)
            (strAppend_left_injective "Registration for ") r]
          by_cases hr : r ∈ ((m (toString n)).filter (compatiblePred row)).map
              (fun e => e.round)
          · rw [List.count_eq_one_of_mem (nodup_dedupFirst _)
              (mem_dedupFirst.mpr hr), if_pos hr]
          · rw [List.count_eq_zero.mpr (fun hm => hr (mem_dedupFirst.mp hm)),
              if_neg hr]
  · rcases hn : row.eventNumber with _ | n
    · simp [findMatchingLenexEvent, hn]
    · have hv : findMatchingLenexEvent row m
          = (m (toString n)).find? (fun event =>
              !isForbiddenRound event.round &&
              (event.relayCount == row.relayCount) &&
              (some event.distance == row.distance) &&
              (if row.stroke == "" then true else event.stroke == row.stroke) &&
              (if row.gender == "" then true else event.gender == row.gender)) := by
        simp [findMatchingLenexEvent, hn]
      rw [hv, List.find?_eq_none]
      intro e he hpred
      rw [Bool.and_eq_true, Bool.and_eq_true, Bool.and_eq_true,
        Bool.and_eq_true] at hpred
      obtain ⟨⟨⟨⟨hallow, hrelay⟩, hdist⟩, hstroke⟩, hgender⟩ := hpred
      have hcompat : compatiblePred row e = true := by
        simp only [compatiblePred, Bool.and_eq_true]
        refine ⟨⟨⟨hrelay, hdist⟩, ?_⟩, ?_⟩
        · by_cases hs : (row.stroke == "") = true
          · simp [hs]
          · rw [if_neg (by simpa using hs)] at hstroke
            simp [hstroke]
        · by_cases hg : (row.gender == "") = true
          · simp [hg]
          · rw [if_neg (by simpa using hg)] at hgender
            simp [hgender]
      have hece : e ∈ compatibleCandidatesOf row m := by
        simp only [compatibleCandidatesOf, hn]
        exact List.mem_filter.mpr ⟨he, hcompat⟩
      have hfr : isForbiddenRound e.round = true := by
        simpa [isForbiddenRound] using hall e hece
      rw [hfr] at hallow
      exact absurd hallow (by decide)

/-- C1 witness: event 5 exists only in round FIN; an otherwise-matching
row gets exactly one `Registration for FIN` issue and no winning event. -/
theorem C1_forbidden_round_issues_witness :
    List.count ("Registration for " ++ "FIN")
        (validateRowAgainstLenex 24 c1Row c1Map true) = 1
      ∧ findMatchingLenexEvent c1Row c1Map = none := by
  have h := C1_forbidden_round_issues 24 c1Row c1Map (by decide)
  refine ⟨?_, h.2⟩
  have h1 := h.1 "FIN"
  rw [h1]
  decide

end Unip

namespace Unip

/-! ## Claim C3 -/

theorem strAppend_assoc (a b c : String) : (a ++ b) ++ c = a ++ (b ++ c) :=
  strEq_of_data (by
    rw [strData_append, strData_append, strData_append, strData_append,
      List.append_assoc])

theorem strokeMismatchMsg_ne_loose (B SC q : String) :
    strokeMismatchMsg B SC q ≠ looseParaMsg B := by
  intro h
  unfold strokeMismatchMsg looseParaMsg at h
  simp only [strAppend_assoc] at h
  have h3 : (("\" for stroke " ++ (SC ++ (" (expected " ++ (q ++ " class)"))))
        : String)
      = "\" (accepted: S1-S15, SB1-SB15, SM1-SM15)" :=
    strAppend_left_cancel (strAppend_left_cancel h)
  have h4 := congrArg (fun s => s.data.get? 2) h3
  dsimp only at h4
  rw [show (("\" for stroke " ++ (SC ++ (" (expected " ++ (q ++ " class)"))))
        : String).data.get? 2 = some 'f' from rfl] at h4
  rw [show ("\" (accepted: S1-S15, SB1-SB15, SM1-SM15)"
        : String).data.get? 2 = some '(' from rfl] at h4
  exact absurd h4 (by decide)

theorem parseDistance_issues_cases (v : String) :
    (parseDistance v).issues = []
      ∨ (parseDistance v).issues = ["Field 2 (distance) is invalid"] := by
  simp only [parseDistance]
  split
  · exact Or.inl rfl
  · split
    · exact Or.inl rfl
    · exact Or.inr rfl

theorem gender_issues_heads (v : String) :
    ∀ x ∈ (parseGenderAndAgeGroup v).issues,
      x.data.head? = some 'U' ∨ x.data.head? = some 'F' := by
  intro x hx
  rcases hdd : (jsToUpper (jsTrim v)).data with _ | ⟨c, rest⟩
  · have hv : (parseGenderAndAgeGroup v).issues
        = ["Field 7 (gender+agegroup) is missing"] := by
      simp only [parseGenderAndAgeGroup]
      rw [hdd]
    rw [hv, List.mem_singleton] at hx
    subst hx
    exact Or.inr rfl
  · have hv : (parseGenderAndAgeGroup v).issues
        = (if (genderMapChar c).getD "" = "" then
            ["Unknown gender code \"" ++ String.singleton c ++ "\" in field 7"]
          else [])
          ++ (if (⟨rest⟩ : String) = "" then
            ["Field 7 agegroup part is missing"] else []) := by
      simp only [parseGenderAndAgeGroup]
      rw [hdd]
    rw [hv] at hx
    rcases List.mem_append.mp hx with h1 | h2
    · rcases mem_ite_lists h1 with h3 | h4
      · rw [List.mem_singleton] at h3
        subst h3
        exact Or.inl rfl
      · exact absurd h4 (List.not_mem_nil _)
    · rcases mem_ite_lists h2 with h3 | h4
      · rw [List.mem_singleton] at h3
        subst h3
        exact Or.inr rfl
      · exact absurd h4 (List.not_mem_nil _)

theorem birth_issues_cases (v : String) (isR : Bool) (ag : String) :
    (parseBirthYearOrClass v isR ag).issues = []
    ∨ (parseBirthYearOrClass v isR ag).issues
        = ["Field 8 (birth year/class) is missing"]
    ∨ (parseBirthYearOrClass v isR ag).issues
        = [looseParaMsg (parseBirthYearOrClass v isR ag).birthYearOrClass] := by
  simp only [parseBirthYearOrClass]
  split
  · split
    · exact Or.inl rfl
    · exact Or.inr (Or.inl rfl)
  · split
    · exact Or.inl rfl
    · split
      · exact Or.inl rfl
      · split
        · exact Or.inl rfl
        · split
          · exact Or.inr (Or.inr rfl)
          · exact Or.inl rfl

theorem paraCrossIssue_count (strokeCode B : String) (p : String)
    (hp : parseParaClassPfx B = some p) :
    (∀ q, expectedPfxByStroke strokeCode = some q →
      (p ≠ q → (paraCrossIssue strokeCode B).count
          (strokeMismatchMsg B strokeCode q) = 1)
      ∧ (p = q → ∀ q2, (paraCrossIssue strokeCode B).count
          (strokeMismatchMsg B strokeCode q2) = 0))
    ∧ (expectedPfxByStroke strokeCode = none →
        ∀ q2, (paraCrossIssue strokeCode B).count
          (strokeMismatchMsg B strokeCode q2) = 0) := by
  have hv : ∀ l : List String, paraCrossIssue strokeCode B = l →
      paraCrossIssue strokeCode B = l := fun _ h => h
  constructor
  · intro q hq
    constructor
    · intro hne
      have hexp : paraCrossIssue strokeCode B
          = [strokeMismatchMsg B strokeCode q] := by
        unfold paraCrossIssue
        rw [hp]
        dsimp only
        rw [hq]
        dsimp only
        rw [if_pos hne]
      rw [hexp]
      simp
    · intro heq q2
      have hexp : paraCrossIssue strokeCode B = [] := by
        unfold paraCrossIssue
        rw [hp]
        dsimp only
        rw [hq]
        dsimp only
        rw [if_neg (by rw [heq]; exact fun hc => hc rfl)]
      rw [hexp]
      rfl
  · intro hq q2
    have hexp : paraCrossIssue strokeCode B = [] := by
      unfold paraCrossIssue
      rw [hp]
      dsimp only
      rw [hq]
    rw [hexp]
    rfl

theorem rowIssues_para_count (D : DistanceInfo) (G : GenderInfo)
    (B : BirthInfo) (en : Option Nat)
    (stroke strokeCode lastName firstName : String) (isRelay : Bool)
    (f7 : String) (q2 : String)
    (hisR : isRelay = false) (hstroke : ¬ stroke = "")
    (hD : D.issues = [] ∨ D.issues = ["Field 2 (distance) is invalid"])
    (hG : ∀ x ∈ G.issues, x.data.head? = some 'U' ∨ x.data.head? = some 'F')
    (hB : B.issues = []
      ∨ B.issues = ["Field 8 (birth year/class) is missing"]
      ∨ B.issues = [looseParaMsg B.birthYearOrClass]) :
    (rowIssues D G B en stroke strokeCode lastName firstName isRelay f7).count
        (strokeMismatchMsg B.birthYearOrClass strokeCode q2)
      = (paraCrossIssue strokeCode B.birthYearOrClass).count
          (strokeMismatchMsg B.birthYearOrClass strokeCode q2) := by
  subst hisR
  have hmsghead : (strokeMismatchMsg B.birthYearOrClass strokeCode q2).data.head?
      = some 'I' := rfl
  have hz : ∀ l : List String,
      (∀ x ∈ l, strokeMismatchMsg B.birthYearOrClass strokeCode q2 ≠ x) →
      l.count (strokeMismatchMsg B.birthYearOrClass strokeCode q2) = 0 :=
    fun l h => List.count_eq_zero.mpr (fun hm => h _ hm rfl)
  have hD0 : D.issues.count
      (strokeMismatchMsg B.birthYearOrClass strokeCode q2) = 0 := by
    rcases hD with h | h <;> rw [h]
    · rfl
    · refine hz _ (fun x hx => ?_)
      rw [List.mem_singleton] at hx
      subst hx
      exact str_ne_of_head (by rw [hmsghead]; decide)
  have hG0 : G.issues.count
      (strokeMismatchMsg B.birthYearOrClass strokeCode q2) = 0 := by
    refine hz _ (fun x hx he => ?_)
    rcases hG x hx with hh | hh <;>
      · rw [← he, hmsghead] at hh
        exact absurd hh (by decide)
  have hB0 : B.issues.count
      (strokeMismatchMsg B.birthYearOrClass strokeCode q2) = 0 := by
    rcases hB with h | h | h <;> rw [h]
    · rfl
    · refine hz _ (fun x hx => ?_)
      rw [List.mem_singleton] at hx
      subst hx
      exact str_ne_of_head (by rw [hmsghead]; decide)
    · refine hz _ (fun x hx => ?_)
      rw [List.mem_singleton] at hx
      subst hx
      exact strokeMismatchMsg_ne_loose B.birthYearOrClass strokeCode q2
  have hIte0 : ∀ (c : Prop) (inst : Decidable c) (s : String),
      s.data.head? = some 'F' →
      (if c then [s] else []).count
        (strokeMismatchMsg B.birthYearOrClass strokeCode q2) = 0 := by
    intro c inst s hs
    refine hz _ (fun x hx he => ?_)
    rcases mem_ite_lists hx with h1 | h1
    · rw [List.mem_singleton] at h1
      subst h1
      rw [← he, hmsghead] at hs
      exact absurd hs (by decide)
    · exact absurd h1 (List.not_mem_nil _)
  unfold rowIssues
  simp only [List.count_append]
  rw [hD0, hG0, hB0]
  rw [hIte0 _ _ "Field 1 (event number) is missing or invalid" rfl,
    hIte0 _ _ ("Field 3 (stroke) value \"" ++ strokeCode ++ "\" is unknown") rfl,
    hIte0 _ _ "Field 4 (last name/team) is missing" rfl,
    hIte0 _ _ "Field 5 (first name) is missing for an individual event" rfl]
  rw [show (if (false : Bool) then mastersRelayIssue f7 else []) = [] from rfl]
  rw [if_pos (show ((!false && decide (stroke ≠ "")) = true) from by
    simp [hstroke])]
  simp

end Unip

namespace Unip

/-- C3 counterexample: stroke code `LM` resolves to MEDLEY, and a
non-relay `LM` row with the valid para class `S3` (group S, not the SM
the claim requires for MEDLEY) raises no issue at all — the expectation
table is keyed by the raw stroke code and has no entry for `LM`. -/
theorem C3_counterexample_LM_medley :
    (parseRow 2 "1,100,LM,Doe,Jan,,M90,S3,,,,,,").relayCount = 1
      ∧ (parseRow 2 "1,100,LM,Doe,Jan,,M90,S3,,,,,,").stroke = "MEDLEY"
      ∧ parseParaClassPfx
          (parseRow 2 "1,100,LM,Doe,Jan,,M90,S3,,,,,,").birthYearOrClass
        = some "S"
      ∧ (parseRow 2 "1,100,LM,Doe,Jan,,M90,S3,,,,,,").issues = [] := by
  decide

/-- C3 (amended): the para-class prefix expectation is keyed by the raw
stroke code — `FR`/`BU`/`RY` expect S, `BR` expects SB, `IM` expects SM,
and `LM` (which also resolves to MEDLEY) has no expectation.  For a
non-relay row with a resolved stroke and a valid para class: when the
stroke code has an expectation, a mismatching group raises exactly one
issue naming the expected group and a matching group raises none; when
the stroke code has no expectation (`LM`), no such issue is ever
raised. -/
theorem C3_para_prefix_by_stroke_code (ln : Nat) (line : String) (p : String)
    (hrel : (parseRow ln line).relayCount ≤ 1)
    (hstroke : ¬ (parseRow ln line).stroke = "")
    (hp : parseParaClassPfx (parseRow ln line).birthYearOrClass = some p) :
    (∀ q, expectedPfxByStroke (parseRow ln line).strokeCode = some q →
      (p ≠ q → ((parseRow ln line).issues).count
          (strokeMismatchMsg (parseRow ln line).birthYearOrClass
            (parseRow ln line).strokeCode q) = 1)
      ∧ (p = q → ∀ q2, ((parseRow ln line).issues).count
          (strokeMismatchMsg (parseRow ln line).birthYearOrClass
            (parseRow ln line).strokeCode q2) = 0))
    ∧ (expectedPfxByStroke (parseRow ln line).strokeCode = none →
        ∀ q2, ((parseRow ln line).issues).count
          (strokeMismatchMsg (parseRow ln line).birthYearOrClass
            (parseRow ln line).strokeCode q2) = 0) := by
  have hrc : (parseDistance (fieldAt line 1)).relayCount ≤ 1 := hrel
  have hisR : decide (1 < (parseDistance (fieldAt line 1)).relayCount) = false :=
    decide_eq_false (Nat.not_lt.mpr hrc)
  have hcnt : ∀ q2, ((parseRow ln line).issues).count
      (strokeMismatchMsg (parseRow ln line).birthYearOrClass
        (parseRow ln line).strokeCode q2)
      = (paraCrossIssue (parseRow ln line).strokeCode
          (parseRow ln line).birthYearOrClass).count
        (strokeMismatchMsg (parseRow ln line).birthYearOrClass
          (parseRow ln line).strokeCode q2) := by
    intro q2
    exact rowIssues_para_count
      (parseDistance (fieldAt line 1))
      (parseGenderAndAgeGroup (fieldAt line 6))
      (parseBirthYearOrClass (fieldAt line 7)
        (decide (1 < (parseDistance (fieldAt line 1)).relayCount))
        (parseGenderAndAgeGroup (fieldAt line 6)).ageGroupCode)
      (if isDigits (jsTrim (fieldAt line 0))
        then some (strToNat (jsTrim (fieldAt line 0))) else none)
      ((strokeTable.lookup (jsToUpper (jsTrim (fieldAt line 2)))).getD "")
      (jsToUpper (jsTrim (fieldAt line 2)))
      (jsTrim (fieldAt line 3)) (jsTrim (fieldAt line 4))
      (decide (1 < (parseDistance (fieldAt line 1)).relayCount))
      (jsToUpper (jsTrim (fieldAt line 6))) q2
      hisR hstroke
      (parseDistance_issues_cases (fieldAt line 1))
      (gender_issues_heads (fieldAt line 6))
      (birth_issues_cases (fieldAt line 7) _ _)
  obtain ⟨hA, hB2⟩ := paraCrossIssue_count (parseRow ln line).strokeCode
    (parseRow ln line).birthYearOrClass p hp
  refine ⟨?_, ?_⟩
  · intro q hq
    refine ⟨?_, ?_⟩
    · intro hne
      rw [hcnt q]
      exact (hA q hq).1 hne
    · intro heq q2
      rw [hcnt q2]
      exact (hA q hq).2 heq q2
  · intro hq q2
    rw [hcnt q2]
    exact hB2 hq q2

/-- C3 witness: `SB7` with stroke FR (expects S) raises exactly one
issue expecting the S class. -/
theorem C3_para_prefix_by_stroke_code_witness :
    (parseRow 2 "1,100,FR,Doe,Jan,,M90,SB7,,,,,,").birthYearOrClass = "SB7"
      ∧ (parseRow 2 "1,100,FR,Doe,Jan,,M90,SB7,,,,,,").strokeCode = "FR"
      ∧ ((parseRow 2 "1,100,FR,Doe,Jan,,M90,SB7,,,,,,").issues).count
          (strokeMismatchMsg
            (parseRow 2 "1,100,FR,Doe,Jan,,M90,SB7,,,,,,").birthYearOrClass
            (parseRow 2 "1,100,FR,Doe,Jan,,M90,SB7,,,,,,").strokeCode "S") = 1 := by
  refine ⟨by decide, by decide, ?_⟩
  have h := C3_para_prefix_by_stroke_code 2 "1,100,FR,Doe,Jan,,M90,SB7,,,,,," "SB"
    (by decide) (by decide) (by decide)
  exact (h.1 "S" (by decide)).1 (by decide)

end Unip

namespace Unip

/-! ## Claims C2 and C10 -/

/-- C2: the entry builder keeps at most one athlete element per identity
key (never two), gives each matched individual row exactly one entry on
its key's unique athlete, and assigns athlete identifiers 1, 2, ... in
order of first appearance. -/
theorem C2_athlete_identity_dedup (cys : Nat) (m : EventsByNumber)
    (rows : List UniPRow) :
    ((buildLenexEntries cys rows m).athletes.map (fun a => a.key)).Nodup
    ∧ (∀ r ∈ matchedIndiv m rows, ∃! a,
        a ∈ (buildLenexEntries cys rows m).athletes
          ∧ a.key = athleteKeyOf cys r)
    ∧ (∀ a ∈ (buildLenexEntries cys rows m).athletes,
        a.entries.length = (rowsForKey cys m rows a.key).length)
    ∧ (buildLenexEntries cys rows m).athletes.map (fun a => a.athleteId)
        = List.range' 1 (buildLenexEntries cys rows m).athletes.length := by
  obtain ⟨h1, h2, h3, h4, h5⟩ := build_inv cys m rows
  have hnodup : ((buildLenexEntries cys rows m).athletes.map
      (fun a => a.key)).Nodup := by
    rw [h1]
    exact nodup_dedupFirst _
  refine ⟨hnodup, ?_, ?_, h3⟩
  · intro r hr
    have hkmem : athleteKeyOf cys r
        ∈ (buildLenexEntries cys rows m).athletes.map (fun a => a.key) := by
      rw [h1]
      exact mem_dedupFirst.mpr (List.mem_map.mpr ⟨r, hr, rfl⟩)
    rcases List.mem_map.mp hkmem with ⟨a, ha, hak⟩
    refine ⟨a, ⟨ha, hak⟩, ?_⟩
    rintro b ⟨hb, hbk⟩
    exact List.inj_on_of_nodup_map hnodup hb ha (by rw [hbk, hak])
  · intro a ha
    rw [h4 a ha]
    apply length_filterMap_of_isSome
    intro x hx
    have hx2 : x ∈ matchedIndiv m rows := (List.mem_filter.mp hx).1
    have hk : indivKeep m x = true := by
      have := (List.mem_filter.mp hx2).2
      simpa using this
    rw [indivKeep, Bool.and_eq_true] at hk
    simp [entryOf, hk.1]

/-- C2 witness: two rows of one swimmer on two valid events produce one
athlete with two entries and identifier 1. -/
theorem C2_athlete_identity_dedup_witness :
    (∃! a, a ∈ (buildLenexEntries 24 sampleParaRows sampleEventsMap).athletes
      ∧ a.key = athleteKeyOf 24 (parseRow 2 "1,100,BR,Doe,Jan,,M90,SB7,,,,,,"))
    ∧ sampleAthlete ∈ (buildLenexEntries 24 sampleParaRows sampleEventsMap).athletes
    ∧ sampleAthlete.entries.length
        = (rowsForKey 24 sampleEventsMap sampleParaRows sampleAthlete.key).length
    ∧ (rowsForKey 24 sampleEventsMap sampleParaRows sampleAthlete.key).length = 2
    ∧ (buildLenexEntries 24 sampleParaRows sampleEventsMap).athletes.map
        (fun a => a.athleteId)
      = List.range' 1
          (buildLenexEntries 24 sampleParaRows sampleEventsMap).athletes.length := by
  have h := C2_athlete_identity_dedup 24 sampleEventsMap sampleParaRows
  refine ⟨h.2.1 _ (by decide), by decide,
    h.2.2.1 sampleAthlete (by decide), by decide, h.2.2.2⟩

/-- C10: an athlete's single HANDICAP element accumulates one attribute
per distinct classification group — each of free/breast/medley equals the
last level decoded for that group among the athlete's own rows in order
(so a later same-group classification overwrites only that attribute's
level, and different groups accumulate) — and the element exists exactly
when some row of the athlete carries a classification. -/
theorem C10_handicap_accumulation (cys : Nat) (m : EventsByNumber)
    (rows : List UniPRow) :
    ∀ a ∈ (buildLenexEntries cys rows m).athletes,
      (∀ attr, handicapProj a.handicap attr
        = ((((rowsForKey cys m rows a.key).filterMap
            (fun r => getHandicapFromClass r.birthYearOrClass)).filter
              (fun hc => hc.1 = attr)).map Prod.snd).getLast?)
      ∧ (a.handicap = none ↔
          (rowsForKey cys m rows a.key).filterMap
            (fun r => getHandicapFromClass r.birthYearOrClass) = []) := by
  obtain ⟨h1, h2, h3, h4, h5⟩ := build_inv cys m rows
  intro a ha
  constructor
  · intro attr
    rw [h5 a ha, handicapProj_foldHandicap]
  · rw [h5 a ha, foldHandicap_eq_none_iff]

/-- C10 witness: SB7 on one row and SM5 on another row of the same
athlete set both the breast and the medley attribute. -/
theorem C10_handicap_accumulation_witness :
    handicapProj sampleAthlete.handicap HandicapAttributeName.breast = some "7"
    ∧ handicapProj sampleAthlete.handicap HandicapAttributeName.medley
        = some "5" := by
  have h := C10_handicap_accumulation 24 sampleEventsMap sampleParaRows
    sampleAthlete (by decide)
  constructor
  · rw [h.1 HandicapAttributeName.breast]
    decide
  · rw [h.1 HandicapAttributeName.medley]
    decide

/-! ## Claim C8 -/

/-- C8 counterexample: the same registration text and catalog yield
different merged issue lists when run in different calendar years
(current-year last-two-digits 24 versus 25), because the two-digit
birth-year inference reads the clock — the pipeline is not a pure
function of the registration text and catalog alone. -/
theorem C8_counterexample_clock_dependence :
    Except.map pipelineIssuesPart (runPipeline 24 c8Content c8Map)
      ≠ Except.map pipelineIssuesPart (runPipeline 25 c8Content c8Map) := by
  decide

/-- Equation lemma: a failed parse propagates through the pipeline. -/
theorem runPipeline_error_eq (cys : Nat) (content : String)
    (m : EventsByNumber) (e : String)
    (hpc : parseUniP content = Except.error e) :
    runPipeline cys content m = Except.error e := by
  unfold runPipeline
  rw [hpc]

/-- Equation lemma: a successful parse yields the full pipeline tuple. -/
theorem runPipeline_ok_eq (cys : Nat) (content : String)
    (m : EventsByNumber) (pr : UniPParseResult)
    (hpc : parseUniP content = Except.ok pr) :
    runPipeline cys content m = Except.ok (pr.clubName, pr.rows,
      pr.rows.map (fun row =>
        mergeIssues row.issues (validateRowAgainstLenex cys row m true)),
      buildLenexEntries cys
        (pr.rows.filter (fun row =>
          (mergeIssues row.issues
            (validateRowAgainstLenex cys row m true)).isEmpty)) m) := by
  unfold runPipeline
  rw [hpc]

/-- The club-name and parsed-row components of the pipeline output are
determined by the registration text alone. -/
theorem runPipeline_parsePart_eq (cys : Nat) (content : String)
    (m : EventsByNumber) :
    Except.map pipelineParsePart (runPipeline cys content m)
      = Except.map (fun pr => (pr.clubName, pr.rows)) (parseUniP content) := by
  rcases hpc : parseUniP content with e | pr
  · rw [runPipeline_error_eq cys content m e hpc]
    rfl
  · rw [runPipeline_ok_eq cys content m pr hpc]
    rfl

/-- C8 (amended): row parsing, cross-validation and entry building are
pure functions of the registration text, the catalog and the current
year: the parsed rows and club name agree even across different current
years, and the full pipeline output (rows, merged issue lists, athlete
and relay identifiers) is identical whenever the current year is also
the same. -/
theorem C8_pipeline_determinism (cys1 cys2 : Nat) (content : String)
    (m : EventsByNumber) :
    Except.map pipelineParsePart (runPipeline cys1 content m)
      = Except.map pipelineParsePart (runPipeline cys2 content m)
    ∧ (cys1 = cys2 → runPipeline cys1 content m = runPipeline cys2 content m) := by
  constructor
  · rw [runPipeline_parsePart_eq cys1 content m,
      runPipeline_parsePart_eq cys2 content m]
  · rintro rfl
    rfl

/-- C8 witness: concrete pipeline runs at clock values 24/25 share the
parse component, and re-running at the same clock value is identical. -/
theorem C8_pipeline_determinism_witness :
    Except.map pipelineParsePart (runPipeline 24 c8Content c8Map)
      = Except.map pipelineParsePart (runPipeline 25 c8Content c8Map)
    ∧ runPipeline 24 c8Content c8Map = runPipeline 24 c8Content c8Map := by
  exact ⟨(C8_pipeline_determinism 24 25 c8Content c8Map).1,
    (C8_pipeline_determinism 24 24 c8Content c8Map).2 rfl⟩

end Unip
